import Mathlib

/-!
Verification of the CLIProxyAPI per-request execution core.

This file gives a shallow embedding, in Lean 4, of the parts of the
CLIProxyAPI repository that the verified properties speak about:

* the Codex WebSocket request-body builder
  (internal/runtime/executor, `buildCodexWebsocketRequestBody`);
* Codex request normalization (`normalizeCodexRequestBody`);
* the Codex prompt-cache coordinator (`applyCodexPromptCache`,
  `resolveCodexPromptCacheID`, TTL resolution and clamping);
* the tool-call runtime duplicate handling (internal/runtime/toolcall);
* the Codex stream-folding non-streaming executor and the Gemini CLI
  model-fallback loop;
* the Kimi request transformation (`normalizeKimiToolMessageLinks`);
* the `BaseExecutor.ExecuteStream` producer loop.

JSON documents are modelled by the inductive `JVal`.  Objects are lists
of key/value pairs; as in JSON, keys are assumed unique, so deleting a
key is modelled as filtering it out and reading a key returns the first
binding.  Byte-level concerns (whitespace placement, duplicate keys,
invalid UTF-8) are outside the model.  External collaborators that the
spec declares out of scope (the translator library, SHA-256, UUID
generation, Go's `time.ParseDuration`) are passed in as parameters of
the embedded functions, so every theorem holds for all of their values.
-/

namespace CLIProxy

/-- An ASCII whitespace character (the white space Go `strings.TrimSpace`
removes, restricted to ASCII). -/
def isGoSpace (c : Char) : Bool :=
  c = ' ' ∨ c = '\t' ∨ c = '\n' ∨ c = '\r' ∨ c = '\x0b' ∨ c = '\x0c'

/-- Go `strings.TrimSpace` (ASCII whitespace). -/
def goTrim (s : String) : String :=
  ⟨((s.data.dropWhile isGoSpace).reverse.dropWhile isGoSpace).reverse⟩

/-- Lower-case an ASCII letter. -/
def lowerChar (c : Char) : Char :=
  if 'A' ≤ c ∧ c ≤ 'Z' then Char.ofNat (c.toNat + 32) else c

/-- Go `strings.ToLower` (ASCII letters). -/
def goToLower (s : String) : String :=
  ⟨s.data.map lowerChar⟩

/-- Go string slicing `s[n:]` (on ASCII text, where bytes are characters). -/
def goDrop (s : String) (n : Nat) : String :=
  ⟨s.data.drop n⟩

/-- Go `strings.HasPrefix`. -/
def goStartsWith (s pre : String) : Bool :=
  pre.data.isPrefixOf s.data

/-- JSON value, the domain of the gjson/sjson operations used by the Go code. -/
inductive JVal where
  | null
  | jbool (b : Bool)
  | jnum (n : Int)
  | jstr (s : String)
  | jarr (xs : List JVal)
  | jobj (fields : List (String × JVal))

/-- Read a key of a JSON object (first binding wins, as in gjson). -/
def objGet (fs : List (String × JVal)) (k : String) : Option JVal :=
  match fs with
  | [] => none
  | (k2, v) :: rest => if k2 = k then some v else objGet rest k

/-- Replace the value bound to a key in place, or append the binding at the
end when the key is absent (sjson `Set` semantics on objects). -/
def objSet (fs : List (String × JVal)) (k : String) (v : JVal) : List (String × JVal) :=
  match fs with
  | [] => [(k, v)]
  | (k2, w) :: rest => if k2 = k then (k2, v) :: rest else (k2, w) :: objSet rest k v

/-- Remove a key from a JSON object (sjson `Delete` semantics; with unique
keys removing every binding and removing the first coincide). -/
def objDel (fs : List (String × JVal)) (k : String) : List (String × JVal) :=
  match fs with
  | [] => []
  | (k2, v) :: rest => if k2 = k then objDel rest k else (k2, v) :: objDel rest k

/-- One segment of a gjson/sjson path: an object key or an array index. -/
inductive PathSeg where
  | key (s : String)
  | idx (n : Nat)

/-- gjson `GetBytes`: follow a path through objects and arrays. -/
def jgetAux : List PathSeg → JVal → Option JVal
  | [], v => some v
  | .key k :: rest, v =>
    match v with
    | .jobj fs =>
      match objGet fs k with
      | some w => jgetAux rest w
      | none => none
    | _ => none
  | .idx n :: rest, v =>
    match v with
    | .jarr xs =>
      match xs.get? n with
      | some w => jgetAux rest w
      | none => none
    | _ => none

/-- gjson `GetBytes` with the document first. -/
def jget (v : JVal) (p : List PathSeg) : Option JVal :=
  jgetAux p v

/-- sjson `SetBytes`: write a path, creating missing objects along the way and
overwriting non-object intermediate values with fresh objects. -/
def jsetAux (x : JVal) : List PathSeg → JVal → JVal
  | [], _ => x
  | .key k :: rest, v =>
    match v with
    | .jobj fs =>
      match objGet fs k with
      | some old => .jobj (objSet fs k (jsetAux x rest old))
      | none => .jobj (objSet fs k (jsetAux x rest (.jobj [])))
    | _ => .jobj [(k, jsetAux x rest (.jobj []))]
  | .idx n :: rest, v =>
    match v with
    | .jarr xs =>
      match xs.get? n with
      | some old => .jarr (xs.set n (jsetAux x rest old))
      | none => .jarr xs
    | other => other

/-- sjson `SetBytes` with the document first. -/
def jset (v : JVal) (p : List PathSeg) (x : JVal) : JVal :=
  jsetAux x p v

/-- sjson `DeleteBytes` for the key paths used by the embedded code; deleting
a missing key, or a path into a non-object, leaves the document unchanged. -/
def jdelAux : List PathSeg → JVal → JVal
  | [], v => v
  | [.key k], v =>
    match v with
    | .jobj fs => .jobj (objDel fs k)
    | _ => v
  | .key k :: rest, v =>
    match v with
    | .jobj fs =>
      match objGet fs k with
      | some old => .jobj (objSet fs k (jdelAux rest old))
      | none => .jobj fs
    | _ => v
  | .idx _ :: _, v => v

/-- sjson `DeleteBytes` with the document first. -/
def jdel (v : JVal) (p : List PathSeg) : JVal :=
  jdelAux p v

mutual

/-- Compact serialization of a JSON value (gjson's `Raw` of a parsed value).
Only emptiness and equality of the rendered text matter to the theorems. -/
def jraw : JVal → String
  | .null => "null"
  | .jbool true => "true"
  | .jbool false => "false"
  | .jnum n => toString n
  | .jstr s => "\"" ++ s ++ "\""
  | .jarr xs => "[" ++ jrawList xs ++ "]"
  | .jobj fs => "\x7b" ++ jrawFields fs ++ "\x7d"

/-- Comma-separated serialization of array elements.  -/
def jrawList : List JVal → String
  | [] => ""
  | [v] => jraw v
  | v :: rest => jraw v ++ "," ++ jrawList rest

/-- Comma-separated serialization of object fields. -/
def jrawFields : List (String × JVal) → String
  | [] => ""
  | [(k, v)] => "\"" ++ k ++ "\":" ++ jraw v
  | (k, v) :: rest => "\"" ++ k ++ "\":" ++ jraw v ++ "," ++ jrawFields rest

end

/-- gjson `Result.String()`: strings verbatim, numbers and booleans printed,
`null` and missing values as the empty string, arrays and objects as their
raw JSON text. -/
def jvalString : JVal → String
  | .jstr s => s
  | .jnum n => toString n
  | .jbool true => "true"
  | .jbool false => "false"
  | .null => ""
  | .jarr xs => jraw (.jarr xs)
  | .jobj fs => jraw (.jobj fs)

/-- `gjson.GetBytes(..).String()`: read a path and coerce to string, with
missing paths reading as the empty string. -/
def jgetString (v : JVal) (p : List PathSeg) : String :=
  match jget v p with
  | some w => jvalString w
  | none => ""

/-- Whether a path exists in the document (gjson `Result.Exists()`). -/
def jhas (v : JVal) (p : List PathSeg) : Bool :=
  (jget v p).isSome

/-- gjson `Result.Bool()`: booleans verbatim, strings via Go
`strconv.ParseBool`, numbers by comparison with zero. -/
def jvalBool : JVal → Bool
  | .jbool b => b
  | .jstr s =>
    s = "1" ∨ s = "t" ∨ s = "T" ∨ s = "true" ∨ s = "TRUE" ∨ s = "True"
  | .jnum n => n ≠ 0
  | _ => false

/-- `gjson.GetBytes(..).Bool()`: read a path and coerce to a boolean,
with missing paths reading as `false`. -/
def jgetBool (v : JVal) (p : List PathSeg) : Bool :=
  match jget v p with
  | some w => jvalBool w
  | none => false

/-! ## Codex WebSocket request-body selection

From `buildCodexWebsocketRequestBody` and `codexWebsocketBuildRequestBody`
in the Codex WebSocket executor.  A session tracks, in `connCreateSent`,
whether a `response.create` message has already been sent on the current
connection; the flag is reset to `false` whenever a new upstream
connection replaces the old one and set only by
`markCodexWebsocketCreateSent` after a `response.create` send succeeds. -/

/-- The per-connection state of a `codexWebsocketSession` that request-body
selection depends on. -/
structure CodexWebsocketSessionState where
  connCreateSent : Bool

/-- Go `buildCodexWebsocketRequestBody(body, allowAppend)`: build the
WebSocket frame for a request body.  When appending is allowed and the body
carries a non-blank `previous_response_id`, emit a `response.append` frame
holding only `type` and `input` (the `input` array of the body, or `[]`);
otherwise tag the whole body as `response.create`. -/
def buildCodexWebsocketRequestBody (body : JVal) (allowAppend : Bool) : JVal :=
  if allowAppend ∧ goTrim (jgetString body [.key "previous_response_id"]) ≠ "" then
    let base := jset (.jobj []) [.key "type"] (.jstr "response.append")
    match jget body [.key "input"] with
    | some (.jarr xs) =>
      if goTrim (jraw (.jarr xs)) ≠ "" then jset base [.key "input"] (.jarr xs)
      else jset base [.key "input"] (.jarr [])
    | _ => jset base [.key "input"] (.jarr [])
  else
    jset body [.key "type"] (.jstr "response.create")

/-- Go `codexWebsocketBuildRequestBody(sess, body)`: appending is allowed
exactly when the session's current connection has already had a
`response.create` sent (`connCreateSent`); with no session it defaults to
allowed. -/
def codexWebsocketBuildRequestBody (sess : Option CodexWebsocketSessionState)
    (body : JVal) : JVal :=
  buildCodexWebsocketRequestBody body
    (match sess with
     | none => true
     | some st => st.connCreateSent)

/-! ## Codex request normalization

From `normalizeCodexRequestBody`, `applyCodexReasoningProfile`,
`codexReasoningEnabled` and `buildCodexReasoningProfilePrompt` in
`internal/runtime/executor/codex_provider.go`. -/

/-- Go `codexReasoningEnabled`: some reasoning effort is present and is
neither blank nor `none`. -/
def codexReasoningEnabled (body : JVal) : Bool :=
  [[PathSeg.key "reasoning", PathSeg.key "effort"], [PathSeg.key "reasoning_effort"]].any
    (fun path =>
      jhas body path ∧
        (goToLower (goTrim (jgetString body path)) ≠ "" ∧
          goToLower (goTrim (jgetString body path)) ≠ "none"))

/-- Text of the Codex deep-engineering standards section
(`codexDeepEngineeringStandardsPrompt`), already trimmed. -/
def codexDeepEngineeringStandardsPrompt : String :=
  "Engineering depth policy:\n- Override Brevity: Immediately suspend the \"Zero Fluff\" rule when rigor is required.\n- Maximum Depth: Engage in exhaustive, deep-level reasoning before writing a single line when implementation is requested.\n- Prohibition: Never use surface-level logic. If the reasoning feels easy, dig deeper until the logic is irrefutable.\n\nMulti-Dimensional Analysis (apply when relevant):\n- Architectural: Separation of concerns, modularity, dependency direction, coupling.\n- Performance: Time/space complexity, memory layout, I/O costs, concurrency pitfalls, hot-path optimization.\n- Reliability: Error handling strategy, edge cases, failure modes, defensive programming.\n- Scalability: Will the design hold at 10x load/scope, and what is the long-term maintenance burden.\n- Security: Input validation, injection vectors, privilege boundaries, secrets management.\n- Ecosystem Fit: Prefer solutions native to the language/framework/community."

/-- Text of the Codex normal response-format section
(`codexNormalResponseFormatPrompt`), already trimmed. -/
def codexNormalResponseFormatPrompt : String :=
  "Response format (normal mode):\n1. Rationale: 1-2 sentences on the approach and why.\n2. The Code: production-ready code using project-native libraries/frameworks.\n3. Edge Cases: what can fail and how the implementation defends against it.\n\nWhen describing reasoning, provide a visible rationale summary. Do not expose hidden chain-of-thought."

/-- Text of the deep-profile response section used by
`buildCodexReasoningProfilePrompt` for the `deep` family of presets. -/
def codexDeepProfileSection : String :=
  "Response profile:\n- Prefer thoroughness over brevity.\n- Use multi-lens analysis (user intent/cognitive load, technical tradeoffs/performance, accessibility, scalability/maintenance).\n- Avoid shallow conclusions; justify decisions concretely.\n- Provide a visible rationale summary instead of hidden internal reasoning.\n- Structure the answer into:\n  1. Architectural/Design Rationale\n  2. Edge Cases and Failure Prevention\n  3. Production-Ready Implementation"

/-- Go `buildCodexReasoningProfilePrompt(profile, custom)`: join the preset
sections selected by `profile` with the custom text, separated by blank
lines, and trim the result. -/
def buildCodexReasoningProfilePrompt (profile custom : String) : String :=
  let sections : List String :=
    match goToLower (goTrim (profile)) with
    | "" => [] | "none" => [] | "off" => [] | "disabled" => []
    | "deep" =>
      [codexDeepProfileSection, codexDeepEngineeringStandardsPrompt,
        codexNormalResponseFormatPrompt]
    | "deep_engineering" =>
      [codexDeepProfileSection, codexDeepEngineeringStandardsPrompt,
        codexNormalResponseFormatPrompt]
    | "engineering" =>
      [codexDeepProfileSection, codexDeepEngineeringStandardsPrompt,
        codexNormalResponseFormatPrompt]
    | _ => []
  let sections := if goTrim (custom) ≠ "" then sections ++ [custom] else sections
  goTrim (String.intercalate "\n\n" sections)

/-- Go `applyCodexReasoningProfile`: when the caller asks for a local
reasoning profile under `_cliproxy`, append the generated scaffold to
`instructions` and strip the `_cliproxy` control object. -/
def applyCodexReasoningProfile (body : JVal) : JVal :=
  let profile := goTrim (jgetString body [.key "_cliproxy", .key "reasoning_profile"])
  let custom := goTrim (jgetString body [.key "_cliproxy", .key "reasoning_prompt"])
  let force := jgetBool body [.key "_cliproxy", .key "force_reasoning_profile"]
  if profile = "" ∧ custom = "" then body
  else if ¬force ∧ ¬codexReasoningEnabled body then
    jdel body [.key "_cliproxy"]
  else
    let snippet := buildCodexReasoningProfilePrompt profile custom
    if goTrim (snippet) = "" then jdel body [.key "_cliproxy"]
    else
      let currentInstructions := goTrim (jgetString body [.key "instructions"])
      let body :=
        if currentInstructions = "" then
          jset body [.key "instructions"] (.jstr snippet)
        else
          jset body [.key "instructions"]
            (.jstr (currentInstructions ++ "\n\n" ++ snippet))
      jdel body [.key "_cliproxy"]

/-- Go `normalizeCodexRequestBody(body, model, stream)`: set `model` and the
`stream` flag, move a non-blank top-level `reasoning_effort` into
`reasoning.effort` unless the latter already exists, apply the local
reasoning profile, drop the local `_cliproxy`/`agent_mode` controls and the
Codex-specific `previous_response_id`, `prompt_cache_retention` and
`safety_identifier` fields, and make sure `instructions` exists. -/
def normalizeCodexRequestBody (body : JVal) (model : String) (stream : Bool) : JVal :=
  let body := jset body [.key "model"] (.jstr model)
  let body := jset body [.key "stream"] (.jbool stream)
  let body :=
    if ¬jhas body [.key "reasoning", .key "effort"] then
      let effort := goTrim (jgetString body [.key "reasoning_effort"])
      if effort ≠ "" then
        jset body [.key "reasoning", .key "effort"] (.jstr effort)
      else body
    else body
  let body := jdel body [.key "reasoning_effort"]
  let body := applyCodexReasoningProfile body
  let body := jdel body [.key "_cliproxy"]
  let body := jdel body [.key "agent_mode"]
  let body := jdel body [.key "previous_response_id"]
  let body := jdel body [.key "prompt_cache_retention"]
  let body := jdel body [.key "safety_identifier"]
  if ¬jhas body [.key "instructions"] then
    jset body [.key "instructions"] (.jstr "")
  else body

/-! ## Codex prompt-cache coordinator

From `applyCodexPromptCache`, `resolveCodexPromptCacheID`,
`getOrCreateCodexPromptCacheID`, the retention/TTL helpers in
`internal/runtime/executor/codex_prompt_cache_helper.go`, and the
distributed path `getOrCreateCodexPromptCacheRedis` (the variant with
blank-value repair).  Durations are integers in nanoseconds, mirroring
Go `time.Duration`; absolute times are integers.  UUID generation is
modelled by an injective-by-assumption generator drawn from a counter,
and Go `time.ParseDuration` is a parameter. -/

/-- Go `time.Second` in nanoseconds. -/
def goSecond : Int := 1000000000

/-- Go `time.Hour` in nanoseconds. -/
def goHour : Int := 3600 * goSecond

/-- The clamp ceiling: 7 days in nanoseconds (`maxTTL`). -/
def maxCodexPromptCacheTTL : Int := 7 * 24 * goHour

/-- Modelled from the spec: `config.DefaultCodexPromptCacheTTLSeconds`.
The constant lives in the configuration package, which is not among the
provided sources; the spec fixes the global default at one hour. -/
def defaultCodexPromptCacheTTLSeconds : Int := 3600

/-- Modelled from the spec: `config.DefaultCodexPromptCacheKeyPrefix`.
The constant is not among the provided sources; it is only ever used as an
opaque prefix concatenated in front of the distributed-store key, so its
exact text is irrelevant to every property proved here. -/
def defaultCodexPromptCacheKeyPref : String := ""

/-- The `codex-prompt-cache` section of the server configuration. -/
structure CodexPromptCacheConfig where
  redisURL : String := ""
  keyPref : String := ""
  ttlSeconds : Int := 0
  timeoutMS : Int := 0

/-- The slice of `config.Config` the prompt-cache coordinator reads. -/
structure Config where
  codexPromptCache : CodexPromptCacheConfig := {}

/-- Go `clampCodexPromptCacheTTL`: non-positive TTLs become one hour, TTLs
above seven days are capped at seven days. -/
def clampCodexPromptCacheTTL (ttl : Int) : Int :=
  if ttl ≤ 0 then goHour
  else if ttl > maxCodexPromptCacheTTL then maxCodexPromptCacheTTL
  else ttl

/-- Go `explicitCodexPromptCacheKey`: a non-blank `prompt_cache_key` at top
level, else the one under `metadata`. -/
def explicitCodexPromptCacheKey (reqPayload : JVal) : String :=
  let top := goTrim (jgetString reqPayload [.key "prompt_cache_key"])
  if top ≠ "" then top
  else goTrim (jgetString reqPayload [.key "metadata", .key "prompt_cache_key"])

/-- Go `codexPromptCacheUserID`: the first non-blank among
`metadata.user_id`, `user`, `safety_identifier`,
`metadata.safety_identifier`. -/
def codexPromptCacheUserID (reqPayload : JVal) : String :=
  let candidates :=
    [goTrim (jgetString reqPayload [.key "metadata", .key "user_id"]),
      goTrim (jgetString reqPayload [.key "user"]),
      goTrim (jgetString reqPayload [.key "safety_identifier"]),
      goTrim (jgetString reqPayload [.key "metadata", .key "safety_identifier"])]
  match candidates.find? (fun s => s ≠ "") with
  | some s => s
  | none => ""

/-- Go `cacheDisabledByRetention`: `prompt_cache_retention` is present and
false-like (`false`, a non-positive number, or one of the disabling
strings). -/
def cacheDisabledByRetention (reqPayload : JVal) : Bool :=
  match jget reqPayload [.key "prompt_cache_retention"] with
  | none => false
  | some (.jbool false) => true
  | some (.jnum n) => n ≤ 0
  | some (.jstr s) =>
    let t := goToLower (goTrim (s))
    t = "0" ∨ t = "off" ∨ t = "none" ∨ t = "false" ∨ t = "disabled" ∨
      t = "disable" ∨ t = "no"
  | some _ => false

/-- Go `cacheRetentionRequested`: `prompt_cache_retention` is present and
not false-like. -/
def cacheRetentionRequested (reqPayload : JVal) : Bool :=
  jhas reqPayload [.key "prompt_cache_retention"] ∧
    ¬cacheDisabledByRetention reqPayload

/-- Go `codexPromptCacheRetentionTTL`: the TTL requested by the payload.
Numbers are seconds, strings go through `time.ParseDuration` (passed in as
`parseDuration`); everything else falls back to one hour. -/
def codexPromptCacheRetentionTTL (parseDuration : String → Option Int)
    (reqPayload : JVal) : Int :=
  match jget reqPayload [.key "prompt_cache_retention"] with
  | none => goHour
  | some (.jbool true) => goHour
  | some (.jnum n) => if n > 0 then n * goSecond else goHour
  | some (.jstr s) =>
    if goTrim (s) = "" then goHour
    else
      match parseDuration (goTrim s) with
      | some d => if d > 0 then d else goHour
      | none => goHour
  | some _ => goHour

/-- The configured-default leg of TTL resolution: a positive configured
`ttl-seconds`, else the global default, both clamped. -/
def codexPromptCacheConfigTTL (cfg : Option Config) : Int :=
  match cfg with
  | some c =>
    if c.codexPromptCache.ttlSeconds > 0 then
      clampCodexPromptCacheTTL (c.codexPromptCache.ttlSeconds * goSecond)
    else clampCodexPromptCacheTTL (defaultCodexPromptCacheTTLSeconds * goSecond)
  | none => clampCodexPromptCacheTTL (defaultCodexPromptCacheTTLSeconds * goSecond)

/-- Go `codexPromptCacheEffectiveTTL`: explicit retention wins (zero when
retention disables caching), then the configured default, then the global
default; positive explicit TTLs are clamped into the window. -/
def codexPromptCacheEffectiveTTL (parseDuration : String → Option Int)
    (cfg : Option Config) (reqPayload : JVal) : Int :=
  if jhas reqPayload [.key "prompt_cache_retention"] then
    if cacheDisabledByRetention reqPayload then 0
    else
      let ttl := codexPromptCacheRetentionTTL parseDuration reqPayload
      if ttl > 0 then clampCodexPromptCacheTTL ttl
      else codexPromptCacheConfigTTL cfg
  else codexPromptCacheConfigTTL cfg

/-- One local prompt-cache entry (`codexCache`): a UUID and its absolute
expiry instant. -/
structure CodexCacheEntry where
  id : String
  expire : Int

/-- Association-list lookup shared by the cache-state models. -/
def assocGet {α : Type} (l : List (String × α)) (k : String) : Option α :=
  match l with
  | [] => none
  | (k2, v) :: rest => if k2 = k then some v else assocGet rest k

/-- Association-list update (replace in place or append). -/
def assocSet {α : Type} (l : List (String × α)) (k : String) (v : α) :
    List (String × α) :=
  match l with
  | [] => [(k, v)]
  | (k2, w) :: rest => if k2 = k then (k2, v) :: rest else (k2, w) :: assocSet rest k v

/-- The distributed key/value store as the coordinator sees it: values with
absolute expiry, supporting `GET`, `SET NX` with TTL and `DEL`.  The model
assumes a configured, reachable store: the I/O error legs of the Go code
never fire. -/
structure RedisState where
  entries : List (String × (String × Int)) := []

/-- `GET`: the stored value when present and not expired. -/
def redisGet (st : RedisState) (now : Int) (key : String) : Option String :=
  match assocGet st.entries key with
  | some (v, expire) => if now < expire then some v else none
  | none => none

/-- `SET NX` with TTL: store only when the key is absent (or expired);
returns whether the write happened. -/
def redisSetNX (st : RedisState) (now : Int) (key value : String) (ttl : Int) :
    Bool × RedisState :=
  match redisGet st now key with
  | some _ => (false, st)
  | none => (true, ⟨assocSet st.entries key (value, now + ttl)⟩)

/-- `DEL`. -/
def redisDel (st : RedisState) (key : String) : RedisState :=
  ⟨st.entries.filter (fun kv => kv.1 ≠ key)⟩

/-- The mutable world the prompt-cache coordinator threads through a call:
the process-local map (modelled from the spec, see `getCodexCache`), the
distributed store contents, and the UUID draw counter. -/
structure PromptCacheWorld where
  localMap : List (String × CodexCacheEntry) := []
  redis : RedisState := {}
  uuidCounter : Nat := 0

/-- Modelled from the spec: `getCodexCache` (its defining file is not among
the provided sources; only its call sites are).  Per the spec data model,
the local in-memory mapping stores `{id, expire_at}` per key and honours
the TTL, so a lookup yields only an entry whose expiry lies in the
future. -/
def getCodexCache (w : PromptCacheWorld) (now : Int) (key : String) :
    Option CodexCacheEntry :=
  match assocGet w.localMap key with
  | some e => if now < e.expire then some e else none
  | none => none

/-- Modelled from the spec: `setCodexCache` stores an entry under its key in
the process-wide mapping. -/
def setCodexCache (w : PromptCacheWorld) (key : String) (e : CodexCacheEntry) :
    PromptCacheWorld :=
  { w with localMap := assocSet w.localMap key e }

/-- Draw a fresh UUID from the generator (`uuid.New`). -/
def drawUUID (uuidGen : Nat → String) (w : PromptCacheWorld) :
    String × PromptCacheWorld :=
  (uuidGen w.uuidCounter, { w with uuidCounter := w.uuidCounter + 1 })

/-- Go `redisConfigFrom` (the fields the pure model consumes; the I/O
timeout only configures network deadlines). -/
def redisConfigFrom (cfg : Option Config) : String × String × Int :=
  match cfg with
  | none =>
    ("", defaultCodexPromptCacheKeyPref, defaultCodexPromptCacheTTLSeconds * goSecond)
  | some c =>
    (goTrim (c.codexPromptCache.redisURL),
      if goTrim (c.codexPromptCache.keyPref) ≠ "" then goTrim (c.codexPromptCache.keyPref)
      else defaultCodexPromptCacheKeyPref,
      if c.codexPromptCache.ttlSeconds > 0 then c.codexPromptCache.ttlSeconds * goSecond
      else defaultCodexPromptCacheTTLSeconds * goSecond)

/-- The three value states `codexPromptCacheRedisGetValue` distinguishes:
absent key, present-but-blank (corrupt), and a valid trimmed id. -/
inductive RedisValueState where
  | missing
  | invalid
  | valid (v : String)

/-- Go `codexPromptCacheRedisGetValue`: `GET`, trimming the stored value and
classifying blank values as corrupt. -/
def codexPromptCacheRedisGetValue (st : RedisState) (now : Int) (key : String) :
    RedisValueState :=
  match redisGet st now key with
  | none => .missing
  | some v => if goTrim (v) = "" then .invalid else .valid (goTrim v)

/-- The bounded retry loop inside `getOrCreateCodexPromptCacheRedis`
(`for attempt := 0; attempt < 2; attempt++`): fuel 2 is attempt 0, fuel 1 is
attempt 1; repairs of corrupt values and post-`SETNX` races re-enter the
loop only from attempt 0. -/
def getOrCreateCodexPromptCacheRedisLoop (uuidGen : Nat → String)
    (redisKey : String) (ttl now : Int) :
    Nat → PromptCacheWorld → Option String × PromptCacheWorld
  | 0, w => (none, w)
  | fuel + 1, w =>
    match codexPromptCacheRedisGetValue w.redis now redisKey with
    | .valid v => (some v, w)
    | .invalid =>
      getOrCreateCodexPromptCacheRedisLoop uuidGen redisKey ttl now fuel
        { w with redis := redisDel w.redis redisKey }
    | .missing =>
      let (candidate, w2) := drawUUID uuidGen w
      let (setOK, redis2) := redisSetNX w2.redis now redisKey candidate ttl
      let w3 := { w2 with redis := redis2 }
      if setOK then (some candidate, w3)
      else
        match codexPromptCacheRedisGetValue w3.redis now redisKey with
        | .valid v => (some v, w3)
        | .invalid =>
          if fuel > 0 then
            getOrCreateCodexPromptCacheRedisLoop uuidGen redisKey ttl now fuel
              { w3 with redis := redisDel w3.redis redisKey }
          else (none, w3)
        | .missing =>
          if fuel > 0 then
            getOrCreateCodexPromptCacheRedisLoop uuidGen redisKey ttl now fuel w3
          else (none, w3)

/-- Go `getOrCreateCodexPromptCacheRedis`: resolve the id through the
distributed store; inactive (`none`) when no distributed backend URL is
configured. -/
def getOrCreateCodexPromptCacheRedis (cfg : Option Config) (uuidGen : Nat → String)
    (w : PromptCacheWorld) (key : String) (requestTTL now : Int) :
    Option String × PromptCacheWorld :=
  let (redisURL, keyPref, configTTL) := redisConfigFrom cfg
  let ttl := if requestTTL > 0 then clampCodexPromptCacheTTL requestTTL else configTTL
  let ttl :=
    if ttl ≤ 0 then
      clampCodexPromptCacheTTL (defaultCodexPromptCacheTTLSeconds * goSecond)
    else ttl
  if redisURL = "" then (none, w)
  else getOrCreateCodexPromptCacheRedisLoop uuidGen (keyPref ++ key) ttl now 2 w

/-- Go `getOrCreateCodexPromptCacheID`: key `{model}-{userID}`; the
distributed store is the authority when configured, else the local map,
else a freshly drawn UUID stored with the clamped TTL. -/
def getOrCreateCodexPromptCacheID (cfg : Option Config) (uuidGen : Nat → String)
    (w : PromptCacheWorld) (model userID : String) (ttl now : Int) :
    String × PromptCacheWorld :=
  let model := goTrim (model)
  let userID := goTrim (userID)
  if model = "" ∨ userID = "" then ("", w)
  else
    let key := model ++ "-" ++ userID
    match getOrCreateCodexPromptCacheRedis cfg uuidGen w key ttl now with
    | (some distributedID, w2) => (distributedID, w2)
    | (none, w2) =>
      match getCodexCache w2 now key with
      | some cache => (cache.id, w2)
      | none =>
        let (fresh, w3) := drawUUID uuidGen w2
        let entry : CodexCacheEntry := ⟨fresh, now + clampCodexPromptCacheTTL ttl⟩
        (fresh, setCodexCache w3 key entry)

/-- Go `resolveCodexPromptCacheID`: explicit key wins; disabled retention
suppresses auto-derivation; Claude-source requests derive from the user id
unconditionally, all other sources only under an explicit truthy retention
hint. -/
def resolveCodexPromptCacheID (cfg : Option Config) (uuidGen : Nat → String)
    (parseDuration : String → Option Int) (w : PromptCacheWorld)
    (fromFormat : String) (reqPayload : JVal) (model : String) (now : Int) :
    String × PromptCacheWorld :=
  let explicit := explicitCodexPromptCacheKey reqPayload
  if explicit ≠ "" then (explicit, w)
  else if cacheDisabledByRetention reqPayload then ("", w)
  else if fromFormat = "claude" then
    let userID := codexPromptCacheUserID reqPayload
    if userID ≠ "" then
      getOrCreateCodexPromptCacheID cfg uuidGen w model userID
        (codexPromptCacheEffectiveTTL parseDuration cfg reqPayload) now
    else ("", w)
  else if ¬cacheRetentionRequested reqPayload then ("", w)
  else
    let userID := codexPromptCacheUserID reqPayload
    if userID ≠ "" then
      getOrCreateCodexPromptCacheID cfg uuidGen w model userID
        (codexPromptCacheEffectiveTTL parseDuration cfg reqPayload) now
    else ("", w)

/-- Go `applyCodexPromptCache`: resolve the cache id, write it into the
outbound body as `prompt_cache_key`, and emit the matching
`Conversation_id`/`Session_id` headers.  `rawJSON = none` models an empty
byte slice. -/
def applyCodexPromptCache (cfg : Option Config) (uuidGen : Nat → String)
    (parseDuration : String → Option Int) (w : PromptCacheWorld)
    (fromFormat : String) (reqPayload : JVal) (model : String)
    (rawJSON : Option JVal) (skipIfBodyEmpty : Bool) (now : Int) :
    (Option JVal × String × List (String × String)) × PromptCacheWorld :=
  if skipIfBodyEmpty ∧ rawJSON.isNone then ((rawJSON, "", []), w)
  else
    match resolveCodexPromptCacheID cfg uuidGen parseDuration w fromFormat
      reqPayload model now with
    | (cacheID, w2) =>
      if cacheID = "" then ((rawJSON, "", []), w2)
      else
        ((some (jset (rawJSON.getD (.jobj [])) [.key "prompt_cache_key"]
            (.jstr cacheID)),
          cacheID,
          [("Conversation_id", cacheID), ("Session_id", cacheID)]), w2)

/-! ## Tool-call runtime

From `internal/runtime/toolcall/runtime.go` and the types in the same
package.  Wall-clock instants are integers in milliseconds, so Go
`end.Sub(start).Milliseconds()` becomes subtraction.  The SHA-256 argument
hash (`hashArgs`) and the schema validator are passed in as parameters;
hook emission and the store write-back have no bearing on the returned
`Result` and are not modelled. -/

namespace Toolcall

/-- `toolcall.Status` (the Go type is a string; `none` below stands for the
empty string of a zero `Record`). -/
inductive Status where
  | started
  | succeeded
  | failed
  | timedOut
  | canceled
  | duplicate
deriving DecidableEq, Repr

/-- `toolcall.ToolError`. -/
structure ToolError where
  code : String
  message : String
  retryable : Bool
deriving DecidableEq, Repr

/-- `toolcall.EnvelopeMeta`. -/
structure EnvelopeMeta where
  toolName : String := ""
  toolVersion : String := ""
  callID : String := ""
  argsHash : String := ""
  latencyMS : Int := 0
  duplicate : Bool := false
  replayCached : Bool := false
  conflict : Bool := false
  timedOut : Bool := false
  canceled : Bool := false
  validationFailed : Bool := false
deriving DecidableEq, Repr

/-- `toolcall.Envelope` (the `data` payload is an opaque JSON value). -/
structure Envelope where
  ok : Bool := false
  data : Option CLIProxy.JVal := none
  errorInfo : Option ToolError := none
  meta : EnvelopeMeta := {}

/-- `toolcall.Record`; `status = none` is the empty status string. -/
structure Record where
  callID : String := ""
  toolName : String := ""
  argsHash : String := ""
  status : Option Status := none
  startedAt : Int := 0
  endedAt : Int := 0
  errorCode : String := ""
  envelope : Envelope := {}

/-- `toolcall.Result` (the `Validated` arguments are opaque). -/
structure Result where
  envelope : Envelope
  record : Record
  duplicate : Bool := false
  validated : Option CLIProxy.JVal := none

/-- `toolcall.CallRequest` (the fields `Execute` reads). -/
structure CallRequest where
  callID : String := ""
  toolName : String := ""
  rawArguments : String := ""

/-- Failure mode of a tool handler, as `Execute` classifies it: a context
deadline, a context cancellation, a `ToolError` (panics are recovered into
a `panic`-coded `ToolError` by `callHandler`), or any other error. -/
inductive HandlerFailure where
  | deadlineExceeded
  | ctxCanceled
  | toolErr (te : ToolError)
  | otherErr (msg : String)

/-- What running a tool handler comes to: a data value or a failure. -/
inductive HandlerOutcome where
  | ok (data : CLIProxy.JVal)
  | fail (f : HandlerFailure)

/-- `toolcall.Definition`, with the schema validator and the handler given
extensionally: `validateRaw` returns either an error message or the
validated arguments, and `run` is the observable behaviour of the
handler. -/
structure Definition where
  name : String
  version : String := ""
  timeout : Int := 0
  validateRaw : String → Except String CLIProxy.JVal := fun _ => .ok (.jobj [])
  run : CLIProxy.JVal → HandlerOutcome := fun _ => .ok .null

/-- Go `validateCallRequest` (on the already-trimmed request). -/
def validateCallRequest (req : CallRequest) : Option ToolError :=
  if goTrim (req.callID) = "" then
    some ⟨"invalid_request", "call_id is required", false⟩
  else if goTrim (req.toolName) = "" then
    some ⟨"invalid_request", "tool_name is required", false⟩
  else none

/-- Go `failureResult`: build the failure envelope and record, defaulting
blank meta fields from the request and the hash of its raw arguments. -/
def failureResult (hashFn : String → String) (req : CallRequest)
    (start endT : Int) (status : Status) (err : ToolError)
    (meta : EnvelopeMeta) : Result :=
  let latency := endT - start
  let meta := if meta.callID = "" then { meta with callID := req.callID } else meta
  let meta := if meta.toolName = "" then { meta with toolName := req.toolName } else meta
  let meta :=
    if meta.argsHash = "" then { meta with argsHash := hashFn req.rawArguments } else meta
  let meta := if meta.latencyMS = 0 then { meta with latencyMS := latency } else meta
  let env : Envelope := { ok := false, data := none, errorInfo := some err, meta := meta }
  let rec0 : Record :=
    { callID := req.callID, toolName := req.toolName,
      argsHash := hashFn req.rawArguments, status := some status,
      startedAt := start, endedAt := endT, errorCode := err.code, envelope := env }
  { envelope := env, record := rec0 }

/-- Go `Runtime.duplicateCompletedPolicy`: the empty policy string defaults
to `return_cached`. -/
def duplicateCompletedPolicy (p : String) : String :=
  if p = "" then "return_cached" else p

/-- The test `existing.Status != "" && existing.Status != StatusStarted`:
the stored record has reached a terminal status. -/
def recordCompleted (r : Record) : Bool :=
  match r.status with
  | some s => s ≠ Status.started
  | none => false

/-- Go `Runtime.handleDuplicate`: given the record already stored under the
seed's `call_id` (`none` when `Store.Begin` inserted the seed, i.e. no
duplicate), produce the duplicate result, if any. -/
def handleDuplicate (hashFn : String → String) (policy : String)
    (req : CallRequest) (seed : Record) (existing : Option Record)
    (endT : Int) : Option Result :=
  match existing with
  | none => none
  | some ex =>
    if ex.argsHash ≠ "" ∧ seed.argsHash ≠ "" ∧ ex.argsHash ≠ seed.argsHash then
      let te : ToolError :=
        ⟨"duplicate_call_id_conflict", "same call_id received with different arguments",
          false⟩
      let res := failureResult hashFn req seed.startedAt endT .duplicate te
        { toolName := seed.toolName, argsHash := seed.argsHash,
          duplicate := true, conflict := true }
      some { res with
        record := { res.record with toolName := seed.toolName, argsHash := seed.argsHash },
        duplicate := true }
    else if recordCompleted ex then
      if duplicateCompletedPolicy policy = "fail" then
        let te : ToolError :=
          ⟨"duplicate_call_id_conflict", "duplicate completed tool call replay is disallowed",
            false⟩
        let res := failureResult hashFn req seed.startedAt endT .duplicate te
          { toolName := seed.toolName, argsHash := seed.argsHash,
            duplicate := true, conflict := true }
        some { res with
          record := { res.record with toolName := seed.toolName, argsHash := seed.argsHash },
          duplicate := true }
      else
        let env := ex.envelope
        let meta := { env.meta with
          duplicate := true, replayCached := true, callID := req.callID,
          argsHash := seed.argsHash }
        let meta :=
          if meta.toolName = "" then { meta with toolName := ex.toolName } else meta
        let latency : Int := endT - seed.startedAt
        let meta :=
          if meta.latencyMS = (0 : Int) then { meta with latencyMS := latency } else meta
        some { envelope := { env with meta := meta }, record := ex, duplicate := true }
    else
      let te : ToolError :=
        ⟨"duplicate_in_flight", "duplicate tool call is already in progress", true⟩
      let res := failureResult hashFn req seed.startedAt endT .duplicate te
        { toolName := seed.toolName, argsHash := seed.argsHash, duplicate := true }
      some { res with
        record := { res.record with toolName := seed.toolName, argsHash := seed.argsHash },
        duplicate := true }

/-- Go `classifyHandlerError`: map a handler failure to its error, terminal
status, and meta. -/
def classifyHandlerError (defn : Definition) (callID argsHash : String)
    (start endT : Int) (f : HandlerFailure) :
    ToolError × Status × EnvelopeMeta :=
  let latency : Int := endT - start
  let meta : EnvelopeMeta :=
    { toolName := defn.name, toolVersion := defn.version, callID := callID,
      argsHash := argsHash, latencyMS := latency }
  match f with
  | .deadlineExceeded =>
    (⟨"timeout", "tool execution timed out", true⟩, .timedOut,
      { meta with timedOut := true })
  | .ctxCanceled =>
    (⟨"canceled", "tool execution canceled", true⟩, .canceled,
      { meta with canceled := true })
  | .toolErr te => (te, .failed, meta)
  | .otherErr msg => (⟨"handler_error", msg, false⟩, .failed, meta)

/-- Go `Runtime.Execute`, as a pure function of the request, the registry
lookup, the record already stored under the request's `call_id` (what
`Store.Begin` finds; `store = none` models a runtime without a store), the
handler behaviour, and the call's start and end instants.  The second
component reports whether the tool handler ran, which is what the
idempotency claims are about. -/
def toolcallExecute (hashFn : String → String) (policy : String)
    (registry : String → Option Definition)
    (store : Option (String → Option Record))
    (req0 : CallRequest) (start endT : Int) : Result × Bool :=
  let req : CallRequest :=
    { req0 with callID := goTrim (req0.callID), toolName := goTrim (req0.toolName) }
  match validateCallRequest req with
  | some invalid => (failureResult hashFn req start endT .failed invalid {}, false)
  | none =>
    match registry req.toolName with
    | none =>
      let te : ToolError :=
        ⟨"unknown_tool", "unknown tool \"" ++ req.toolName ++ "\"", false⟩
      (failureResult hashFn req start endT .failed te { toolName := req.toolName },
        false)
    | some defn =>
      let argsHash := hashFn req.rawArguments
      let seed : Record :=
        { callID := req.callID, toolName := defn.name, argsHash := argsHash,
          status := some .started, startedAt := start }
      let existing : Option Record :=
        match store with
        | none => none
        | some lookup => if req.callID = "" then none else lookup req.callID
      match handleDuplicate hashFn policy req seed existing endT with
      | some dup => (dup, false)
      | none =>
        match defn.validateRaw req.rawArguments with
        | .error msg =>
          let te : ToolError := ⟨"validation_error", msg, false⟩
          let res := failureResult hashFn req start endT .failed te
            { toolName := defn.name, toolVersion := defn.version,
              argsHash := argsHash, validationFailed := true }
          ({ res with
              record := { res.record with
                toolName := defn.name, argsHash := seed.argsHash } }, false)
        | .ok validated =>
          match defn.run validated with
          | .ok data =>
            let latency : Int := endT - start
            let okMeta : EnvelopeMeta :=
              { toolName := defn.name, toolVersion := defn.version,
                callID := req.callID, argsHash := argsHash,
                latencyMS := latency }
            let env : Envelope :=
              { ok := true, data := some data, errorInfo := none, meta := okMeta }
            let rec0 : Record :=
              { callID := req.callID, toolName := defn.name,
                argsHash := seed.argsHash, status := some .succeeded,
                startedAt := start, endedAt := endT, envelope := env }
            ({ envelope := env, record := rec0, validated := some validated }, true)
          | .fail f =>
            match classifyHandlerError defn req.callID argsHash start endT f with
            | (te, status, meta) =>
              let res := failureResult hashFn req start endT status te meta
              ({ res with
                  record := { res.record with
                    toolName := defn.name, argsHash := seed.argsHash } }, true)

end Toolcall

/-! ## Codex non-streaming execution (stream folding)

From `CodexExecutorRefactored.executeViaStream`.  The upstream SSE body is
a list of lines; a line either carries the `data:` prefix with a JSON
payload (`SSELine.data`) or does not take part in event selection
(`SSELine.other`: no prefix, or an unparsable payload, which gjson reads
as having no `type`).  `parseCodexUsage` and `TranslateNonStream` — both
outside the provided sources — are parameters. -/

/-- `usageDetail`: the five usage scalars. -/
structure UsageDetail where
  inputTokens : Int := 0
  outputTokens : Int := 0
  reasoningTokens : Int := 0
  cachedTokens : Int := 0
  totalTokens : Int := 0
deriving DecidableEq, Repr

/-- `statusErr`: an HTTP status code and a message body.  (For Gemini 429
errors the Go value additionally carries parsed retry-delay metadata, which
no claim touches.) -/
structure StatusErr where
  code : Int
  msg : String
deriving DecidableEq, Repr

/-- One line of an SSE response body as the Codex scan distinguishes them. -/
inductive SSELine where
  | data (j : JVal)
  | other (s : String)

/-- The per-line test of the scan loop: a `data:`-prefixed line whose
trimmed payload has `type == "response.completed"`. -/
def codexCompletedLine : SSELine → Option JVal
  | .data j =>
    if jgetString j [.key "type"] = "response.completed" then some j else none
  | .other _ => none

/-- The scan-and-select loop of `executeViaStream` over an already-received
2xx body: find the first completed event, publish its usage (when it
parses), and translate it; with no completed event, fail with the
408 disconnect error. -/
def executeViaStreamScan (parseUsage : JVal → Option UsageDetail)
    (translate : JVal → String) :
    List SSELine → List UsageDetail × Except StatusErr String
  | [] =>
    ([], .error ⟨408,
      "stream error: stream disconnected before completion: stream closed before response.completed"⟩)
  | line :: rest =>
    match codexCompletedLine line with
    | some j =>
      let published :=
        match parseUsage j with
        | some d => [d]
        | none => []
      (published, .ok (translate j))
    | none => executeViaStreamScan parseUsage translate rest

/-! ## Gemini CLI model-fallback loop

From `GeminiCLIExecutorRefactored.Execute`.  The upstream is a function
from the attempted model name to an HTTP status and body (each model is
requested at most once); usage parsing and response translation are
parameters. -/

/-- What one pass of the fallback loop produces: the models actually
attempted (in order), the usage publications, and either the winning
translated payload or the surfaced status error. -/
structure GeminiCLIOutcome where
  attempts : List String
  published : List UsageDetail
  result : Except StatusErr String

/-- The `for idx, attemptModel := range models` loop of the Gemini CLI
`Execute`: 2xx wins and publishes usage, 429 falls through to the next
model while remembering status and body, any other status is surfaced at
once; an exhausted list surfaces the remembered status (429 when nothing
was remembered because the list was empty). -/
def geminiCLIExecuteLoop (upstream : String → Int × String)
    (parseUsage : String → UsageDetail) (translate : String → String → String) :
    List String → Int → String → GeminiCLIOutcome
  | [], lastStatus, lastBody =>
    { attempts := [], published := [],
      result := .error ⟨if lastStatus = 0 then 429 else lastStatus, lastBody⟩ }
  | m :: rest, _lastStatus, _lastBody =>
    let (status, data) := upstream m
    if 200 ≤ status ∧ status < 300 then
      { attempts := [m], published := [parseUsage data],
        result := .ok (translate m data) }
    else if status = 429 then
      let o := geminiCLIExecuteLoop upstream parseUsage translate rest status data
      { o with attempts := m :: o.attempts }
    else
      { attempts := [m], published := [], result := .error ⟨status, data⟩ }

/-- `GeminiCLIExecutorRefactored.Execute` restricted to the fallback loop
over the provider's fallback model list, with `lastStatus`/`lastBody`
zero-initialised. -/
def geminiCLIExecute (upstream : String → Int × String)
    (parseUsage : String → UsageDetail) (translate : String → String → String)
    (models : List String) : GeminiCLIOutcome :=
  geminiCLIExecuteLoop upstream parseUsage translate models 0 ""

/-! ## BaseExecutor streaming producer

From the producer goroutine of `BaseExecutor.ExecuteStream`.  The scanned
upstream lines and the scanner's final state (EOF or an error) are inputs;
`TransformResponseBody` and the stateful `TranslateStream` are parameters,
the latter in state-passing form (its Go state is an out-parameter carried
across calls).  The channel becomes the returned list: list order is
emission order and the end of the list is the channel close. -/

/-- `cliproxyexecutor.StreamChunk`: a payload or a terminal error, as two
optional fields like the Go struct. -/
structure StreamChunk (ε : Type) where
  payload : Option String := none
  errv : Option ε := none

/-- The scan loop: transform each line, feed it to the translator, and
collect every emitted chunk string in order, threading translator state. -/
def streamScanOutputs {σ : Type} (transform : String → String)
    (translate : σ → String → σ × List String) :
    σ → List String → σ × List String
  | s, [] => (s, [])
  | s, line :: rest =>
    let (s2, outs) := translate s (transform line)
    let (s3, outs2) := streamScanOutputs transform translate s2 rest
    (s3, outs ++ outs2)

/-- The full chunk sequence the producer goroutine emits before closing the
channel: the per-line chunks, then the chunks for the synthetic `[DONE]`
sentinel, then — only when the scanner ended with an error — one terminal
chunk carrying it. -/
def executeStreamChunks {σ ε : Type} (transform : String → String)
    (translate : σ → String → σ × List String) (s0 : σ)
    (lines : List String) (scanErr : Option ε) : List (StreamChunk ε) :=
  let (s1, outs) := streamScanOutputs transform translate s0 lines
  let (_, doneOuts) := translate s1 "[DONE]"
  outs.map (fun c => { payload := some c }) ++
    doneOuts.map (fun c => { payload := some c }) ++
    (match scanErr with
     | some e => [{ errv := some e }]
     | none => [])

/-! ## Kimi request transformation

From `KimiProvider.TransformRequestBody`, `normalizeKimiToolMessageLinks`
and `fallbackAssistantReasoning`.  The Go loop reads each message from the
original parsed `messages` array while patching the output document at the
current index only, so it is embedded as a state-passing recursion over the
message list (pending tool-call ids, and the most recent non-blank
assistant reasoning). -/

/-- Go `stripKimi`-prefix helper: drop a leading, case-insensitive `kimi-`
from the trimmed model name. -/
def stripKimiModelName (model : String) : String :=
  let model := goTrim (model)
  if goStartsWith (goToLower model) "kimi-" then goDrop model 5 else model

/-- Go `fallbackAssistantReasoning`: the most recent prior non-blank
reasoning, else the textual content of the message (a string, or the
joined `text` parts of an array), else the fixed placeholder. -/
def fallbackAssistantReasoning (msg : JVal) (hasLatest : Bool) (latest : String) :
    String :=
  if hasLatest ∧ goTrim (latest) ≠ "" then latest
  else
    match jget msg [.key "content"] with
    | some (.jstr s) =>
      if goTrim (s) ≠ "" then goTrim (s) else "[reasoning unavailable]"
    | some (.jarr items) =>
      let parts :=
        (items.map (fun item => goTrim (jgetString item [.key "text"]))).filter
          (fun t => t ≠ "")
      if parts ≠ [] then String.intercalate "\n" parts
      else "[reasoning unavailable]"
    | _ => "[reasoning unavailable]"

/-- Go `removePending`: drop the first occurrence of an id. -/
def removePendingID (pending : List String) (id : String) : List String :=
  match pending with
  | [] => []
  | x :: rest => if x = id then rest else x :: removePendingID rest id

/-- The loop state of `normalizeKimiToolMessageLinks`. -/
structure KimiLoopState where
  pending : List String := []
  hasLatest : Bool := false
  latest : String := ""

/-- One iteration of the message loop of `normalizeKimiToolMessageLinks`:
the (possibly patched) message, and the state carried to the next
iteration (pending tool-call ids and the most recent non-blank assistant
reasoning). -/
def kimiStep (st : KimiLoopState) (msg : JVal) : JVal × KimiLoopState :=
  let role := goTrim (jgetString msg [.key "role"])
  if role = "assistant" then
    let reasoning := jget msg [.key "reasoning_content"]
    let reasoningBlank : Bool :=
      match reasoning with
      | some r => goTrim (jvalString r) = ""
      | none => true
    let st1 :=
      match reasoning with
      | some r =>
        if goTrim (jvalString r) ≠ "" then
          { st with hasLatest := true, latest := jvalString r }
        else st
      | none => st
    let toolCalls :=
      match jget msg [.key "tool_calls"] with
      | some (.jarr xs) => xs
      | _ => []
    if toolCalls.isEmpty then (msg, st1)
    else
      let msg2 :=
        if reasoningBlank then
          jset msg [.key "reasoning_content"]
            (.jstr (fallbackAssistantReasoning msg st1.hasLatest st1.latest))
        else msg
      let ids :=
        (toolCalls.map (fun tc => goTrim (jgetString tc [.key "id"]))).filter
          (fun s => s ≠ "")
      (msg2, { st1 with pending := st1.pending ++ ids })
  else if role = "tool" then
    let tid0 := goTrim (jgetString msg [.key "tool_call_id"])
    let step1 : String × JVal :=
      if tid0 = "" then
        let c := goTrim (jgetString msg [.key "call_id"])
        if c ≠ "" then (c, jset msg [.key "tool_call_id"] (.jstr c))
        else ("", msg)
      else (tid0, msg)
    let step2 : String × JVal :=
      if step1.1 = "" then
        match st.pending with
        | [p] => (p, jset step1.2 [.key "tool_call_id"] (.jstr p))
        | _ => ("", step1.2)
      else step1
    let st2 :=
      if step2.1 ≠ "" then
        { st with pending := removePendingID st.pending step2.1 }
      else st
    (step2.2, st2)
  else (msg, st)

/-- The message loop of `normalizeKimiToolMessageLinks`: each iteration
patches at most the current message and threads the loop state. -/
def kimiProcessMessages (st : KimiLoopState) : List JVal → List JVal
  | [] => []
  | msg :: rest =>
    (kimiStep st msg).1 :: kimiProcessMessages (kimiStep st msg).2 rest

/-- Go `normalizeKimiToolMessageLinks`: run the message loop when the body
has a `messages` array, leaving any other body untouched. -/
def normalizeKimiToolMessageLinks (body : JVal) : JVal :=
  match jget body [.key "messages"] with
  | some (.jarr msgs) =>
    jset body [.key "messages"] (.jarr (kimiProcessMessages {} msgs))
  | _ => body

/-- Go `KimiProvider.TransformRequestBody`: set the upstream model name,
normalize tool-message links, and request usage on streams. -/
def kimiTransformRequestBody (body : JVal) (model : String) (stream : Bool) :
    JVal :=
  let body := jset body [.key "model"] (.jstr (stripKimiModelName model))
  let body := normalizeKimiToolMessageLinks body
  if stream then
    jset body [.key "stream_options", .key "include_usage"] (.jbool true)
  else body

/-! ## Concrete inputs from the specification scenarios -/

/-- The request body of the Codex WebSocket body-selection scenario. -/
def codexWsScenarioBody : JVal :=
  .jobj [("previous_response_id", .jstr "resp-1"),
    ("input", .jarr [.jobj [("type", .jstr "function_call_output"),
      ("id", .jstr "tool-1"), ("call_id", .jstr "call-1")]])]

/-- A request body exercising every field of Codex request normalization. -/
def codexNormScenarioBody : JVal :=
  .jobj [("reasoning_effort", .jstr "high"), ("previous_response_id", .jstr "x"),
    ("prompt_cache_retention", .jnum 5), ("safety_identifier", .jstr "y")]

/-- The `response.completed` event of the Codex non-stream folding
scenario. -/
def codexCompletedScenarioEvent : JVal :=
  .jobj [("type", .jstr "response.completed"),
    ("response", .jobj [("usage", .jobj [("input_tokens", .jnum 1),
      ("output_tokens", .jnum 2), ("total_tokens", .jnum 3)])])]

/-! ## Lemma library for the JSON model -/

theorem objGet_objSet_self (fs : List (String × JVal)) (k : String) (v : JVal) :
    objGet (objSet fs k v) k = some v := by
  induction fs with
  | nil => simp [objSet, objGet]
  | cons kv rest ih =>
    obtain ⟨k2, w⟩ := kv
    by_cases h : k2 = k
    · simp [objSet, objGet, h]
    · simp [objSet, objGet, h, ih]

theorem objGet_objSet_ne (fs : List (String × JVal)) (k k' : String) (v : JVal)
    (h : k' ≠ k) : objGet (objSet fs k v) k' = objGet fs k' := by
  have h2 : ¬(k = k') := fun hk => h hk.symm
  induction fs with
  | nil => simp [objSet, objGet, h2]
  | cons kv rest ih =>
    obtain ⟨k2, w⟩ := kv
    by_cases h3 : k2 = k
    · subst h3
      simp [objSet, objGet, h2]
    · by_cases h4 : k2 = k'
      · simp [objSet, objGet, h3, h4, h]
      · simp [objSet, objGet, h3, h4, ih]

theorem objGet_objDel_self (fs : List (String × JVal)) (k : String) :
    objGet (objDel fs k) k = none := by
  induction fs with
  | nil => simp [objDel, objGet]
  | cons kv rest ih =>
    obtain ⟨k2, w⟩ := kv
    by_cases h : k2 = k
    · simp [objDel, objGet, h, ih]
    · simp [objDel, objGet, h, ih]

theorem objGet_objDel_ne (fs : List (String × JVal)) (k k' : String)
    (h : k' ≠ k) : objGet (objDel fs k) k' = objGet fs k' := by
  induction fs with
  | nil => simp [objDel, objGet]
  | cons kv rest ih =>
    obtain ⟨k2, w⟩ := kv
    by_cases h3 : k2 = k
    · subst h3
      have h4 : ¬(k2 = k') := fun hk => h hk.symm
      simp [objDel, objGet, h4, ih]
    · by_cases h4 : k2 = k'
      · simp [objDel, objGet, h3, h4, h]
      · simp [objDel, objGet, h3, h4, ih]

theorem jget_jset_self (v : JVal) (k : String) (x : JVal) :
    jget (jset v [.key k] x) [.key k] = some x := by
  cases v <;>
    simp only [jget, jset, jgetAux, jsetAux, objGet]
  case jobj fs =>
    cases hfs : objGet fs k <;>
      simp [jgetAux, jsetAux, objGet_objSet_self]
  all_goals simp

theorem jget_jset_key_ne (v : JVal) (k k' : String) (h : k' ≠ k)
    (srest rrest : List PathSeg) (x : JVal) :
    jget (jset v (.key k :: srest) x) (.key k' :: rrest) =
      jget v (.key k' :: rrest) := by
  have h2 : ¬(k = k') := fun hk => h hk.symm
  cases v <;>
    simp only [jget, jset, jgetAux, jsetAux, objGet]
  case jobj fs =>
    cases hfs : objGet fs k <;>
      simp [jgetAux, objGet_objSet_ne _ _ _ _ h]
  all_goals simp [h2]

theorem jget_jdel_key_ne (v : JVal) (k k' : String) (h : k' ≠ k)
    (drest rrest : List PathSeg) :
    jget (jdel v (.key k :: drest)) (.key k' :: rrest) =
      jget v (.key k' :: rrest) := by
  cases drest with
  | nil =>
    cases v <;> simp [jget, jdel, jdelAux, jgetAux, objGet_objDel_ne _ _ _ h]
  | cons d ds =>
    cases v <;> simp only [jget, jdel, jdelAux, jgetAux]
    case jobj fs =>
      cases hfs : objGet fs k <;>
        simp [jgetAux, objGet_objSet_ne _ _ _ _ h]

theorem jget_jdel_top_self (v : JVal) (k : String) :
    jget (jdel v [.key k]) [.key k] = none := by
  cases v <;> simp [jget, jdel, jdelAux, jgetAux, objGet_objDel_self]

theorem string_mk_eq_empty_iff (l : List Char) : (⟨l⟩ : String) = "" ↔ l = [] := by
  constructor
  · intro h
    exact congrArg String.data h
  · intro h
    rw [h]

theorem goTrim_ne_empty (s : String) (c : Char) (hc : c ∈ s.data)
    (hsp : isGoSpace c = false) : goTrim s ≠ "" := by
  intro h
  rw [goTrim, string_mk_eq_empty_iff, List.reverse_eq_nil_iff,
    List.dropWhile_eq_nil_iff] at h
  have hc2 : c ∈ s.data.dropWhile isGoSpace := by
    have hsplit := List.takeWhile_append_dropWhile (p := isGoSpace) (l := s.data)
    rw [← hsplit] at hc
    rcases List.mem_append.mp hc with h1 | h1
    · exact absurd (List.mem_takeWhile_imp h1) (by simp [hsp])
    · exact h1
  exact absurd (h c (List.mem_reverse.mpr hc2)) (by simp [hsp])

theorem dropWhile_head_false {α : Type} (p : α → Bool) (l : List α) (x : α)
    (xs : List α) (h : l.dropWhile p = x :: xs) : p x = false := by
  induction l with
  | nil => simp [List.dropWhile] at h
  | cons a as ih =>
    rw [List.dropWhile_cons] at h
    by_cases hp : p a = true
    · exact ih (by simpa [hp] using h)
    · rw [if_neg hp] at h
      injection h with h1 h2
      subst h1
      simpa using hp

theorem goTrim_has_nonspace (s : String) (h : goTrim s ≠ "") :
    ∃ c ∈ (goTrim s).data, isGoSpace c = false := by
  rcases hr : ((s.data.dropWhile isGoSpace).reverse.dropWhile isGoSpace) with _ | ⟨x, xs⟩
  · exact absurd (by rw [goTrim, hr]; rfl) h
  · refine ⟨x, ?_, dropWhile_head_false _ _ _ _ hr⟩
    rw [goTrim, hr]
    simp

theorem goTrim_goTrim_ne_empty (s : String) (h : goTrim s ≠ "") :
    goTrim (goTrim s) ≠ "" := by
  obtain ⟨c, hc, hsp⟩ := goTrim_has_nonspace s h
  exact goTrim_ne_empty _ c hc hsp

theorem goTrim_jraw_jarr_ne_empty (xs : List JVal) :
    goTrim (jraw (.jarr xs)) ≠ "" := by
  apply goTrim_ne_empty _ '['
  · show '[' ∈ ("[" ++ jrawList xs ++ "]").data
    simp [String.data_append]
  · rfl

/-! ## C1: Codex WebSocket request-body selection -/

theorem buildCodex_create (body : JVal) (allowAppend : Bool)
    (h : ¬(allowAppend = true ∧
      goTrim (jgetString body [.key "previous_response_id"]) ≠ "")) :
    buildCodexWebsocketRequestBody body allowAppend =
      jset body [.key "type"] (.jstr "response.create") := by
  rw [buildCodexWebsocketRequestBody, if_neg h]

theorem buildCodex_append (body : JVal)
    (h : goTrim (jgetString body [.key "previous_response_id"]) ≠ "") :
    buildCodexWebsocketRequestBody body true =
      .jobj [("type", .jstr "response.append"),
        ("input", .jarr
          (match jget body [.key "input"] with
           | some (.jarr xs) => xs
           | _ => []))] := by
  rw [buildCodexWebsocketRequestBody, if_pos ⟨rfl, h⟩]
  cases hj : jget body [.key "input"] with
  | none => simp [hj, jset, jsetAux, objSet, objGet]
  | some w =>
    cases w <;>
      simp [hj, jset, jsetAux, objSet, objGet, goTrim_jraw_jarr_ne_empty]

/-- C1: for a Codex WebSocket session, the body builder emits
`response.create` whenever the current connection has not yet carried a
`response.create` (so the first message on every new connection is a
create); it builds `response.append` exactly when the body carries a
non-blank `previous_response_id` and the connection is initialised; an
append frame consists of precisely the fields `type` and `input`, with
`input` taken from the body when it is an array and `[]` otherwise; and a
`response.create` keeps every field of the body, in particular
`previous_response_id`. -/
theorem codex_websocket_request_body_selection
    (st : CodexWebsocketSessionState) (body : JVal) :
    (st.connCreateSent = false →
      jgetString (codexWebsocketBuildRequestBody (some st) body) [.key "type"] =
        "response.create") ∧
    ((jgetString (codexWebsocketBuildRequestBody (some st) body) [.key "type"] =
        "response.append") ↔
      (st.connCreateSent = true ∧
        goTrim (jgetString body [.key "previous_response_id"]) ≠ "")) ∧
    (st.connCreateSent = true →
      goTrim (jgetString body [.key "previous_response_id"]) ≠ "" →
      codexWebsocketBuildRequestBody (some st) body =
        .jobj [("type", .jstr "response.append"),
          ("input", .jarr
            (match jget body [.key "input"] with
             | some (.jarr xs) => xs
             | _ => []))]) ∧
    (¬(st.connCreateSent = true ∧
        goTrim (jgetString body [.key "previous_response_id"]) ≠ "") →
      jget (codexWebsocketBuildRequestBody (some st) body)
          [.key "previous_response_id"] =
        jget body [.key "previous_response_id"] ∧
      jgetString (codexWebsocketBuildRequestBody (some st) body) [.key "type"] =
        "response.create")
    := by
  have hbuild : codexWebsocketBuildRequestBody (some st) body =
      buildCodexWebsocketRequestBody body st.connCreateSent := rfl
  have hcreate : ∀ _ : ¬(st.connCreateSent = true ∧
      goTrim (jgetString body [.key "previous_response_id"]) ≠ ""),
      jget (codexWebsocketBuildRequestBody (some st) body)
          [.key "previous_response_id"] =
        jget body [.key "previous_response_id"] ∧
      jgetString (codexWebsocketBuildRequestBody (some st) body) [.key "type"] =
        "response.create" := by
    intro h
    rw [hbuild, buildCodex_create body _ h]
    constructor
    · exact jget_jset_key_ne body "type" "previous_response_id" (by decide) [] []
        (.jstr "response.create")
    · rw [jgetString, jget_jset_self]
      rfl
  refine ⟨?_, ?_, ?_, hcreate⟩
  · intro hfalse
    exact (hcreate (by simp [hfalse])).2
  · constructor
    · intro htype
      by_cases hc : st.connCreateSent = true ∧
          goTrim (jgetString body [.key "previous_response_id"]) ≠ ""
      · exact hc
      · rw [(hcreate hc).2] at htype
        exact absurd htype (by decide)
    · rintro ⟨h1, h2⟩
      rw [hbuild, h1, buildCodex_append body h2]
      rfl
  · intro h1 h2
    rw [hbuild, h1, buildCodex_append body h2]

/-- Witness for C1 on the scenario body: with `response.create` already sent
on the session connection, the frame is the two-field append carrying the
input items; on a fresh connection it is a create. -/
theorem codex_websocket_request_body_selection_witness :
    codexWebsocketBuildRequestBody (some ⟨true⟩) codexWsScenarioBody =
      .jobj [("type", .jstr "response.append"),
        ("input", .jarr [.jobj [("type", .jstr "function_call_output"),
          ("id", .jstr "tool-1"), ("call_id", .jstr "call-1")]])] ∧
    jgetString (codexWebsocketBuildRequestBody (some ⟨false⟩) codexWsScenarioBody)
      [.key "type"] = "response.create" := by
  constructor
  · have h := (codex_websocket_request_body_selection ⟨true⟩
      codexWsScenarioBody).2.2.1 rfl (by decide)
    exact h
  · exact (codex_websocket_request_body_selection ⟨false⟩
      codexWsScenarioBody).1 rfl

/-! ## C3: Codex request normalization -/

theorem jget_jset2_self (v : JVal) (k1 k2 : String) (x : JVal) :
    jget (jset v [.key k1, .key k2] x) [.key k1, .key k2] = some x := by
  have hstep : ∀ w : JVal, jget (jset w [.key k2] x) [.key k2] = some x :=
    fun w => jget_jset_self w k2 x
  cases v with
  | jobj fs =>
    cases hfs : objGet fs k1 with
    | some old =>
      simp only [jget, jset, jsetAux, jgetAux, hfs, objGet_objSet_self]
      exact hstep old
    | none =>
      simp only [jget, jset, jsetAux, jgetAux, hfs, objGet_objSet_self]
      exact hstep (.jobj [])
  | null => simp [jget, jset, jsetAux, jgetAux, objGet, objGet_objSet_self]
  | jbool b => simp [jget, jset, jsetAux, jgetAux, objGet, objGet_objSet_self]
  | jnum n => simp [jget, jset, jsetAux, jgetAux, objGet, objGet_objSet_self]
  | jstr s => simp [jget, jset, jsetAux, jgetAux, objGet, objGet_objSet_self]
  | jarr xs => simp [jget, jset, jsetAux, jgetAux, objGet, objGet_objSet_self]

theorem applyCodexReasoningProfile_jget_ne (v : JVal) (k : String)
    (h1 : k ≠ "instructions") (h2 : k ≠ "_cliproxy") (rest : List PathSeg) :
    jget (applyCodexReasoningProfile v) (.key k :: rest) =
      jget v (.key k :: rest) := by
  rw [applyCodexReasoningProfile]
  split_ifs <;>
    try simp [jget_jdel_key_ne _ _ _ h2, jget_jset_key_ne _ _ _ h1]
  all_goals
    split_ifs <;>
      simp [jget_jdel_key_ne _ _ _ h2, jget_jset_key_ne _ _ _ h1]

theorem ensureInstructions_jhas (v : JVal) :
    jhas (if ¬jhas v [.key "instructions"] then
      jset v [.key "instructions"] (.jstr "") else v) [.key "instructions"] = true := by
  split_ifs with hc
  · simpa [jhas] using hc
  · simp [jhas, jget_jset_self]

/-- C3: `normalizeCodexRequestBody` sets the `stream` flag and the `model`,
moves a non-blank top-level `reasoning_effort` into `reasoning.effort` when
the latter is absent, removes `previous_response_id`,
`prompt_cache_retention`, `safety_identifier` (and the moved
`reasoning_effort`) from the output, and guarantees an `instructions` field
exists. -/
theorem codex_request_normalization (body : JVal) (model : String) (stream : Bool) :
    jget (normalizeCodexRequestBody body model stream) [.key "stream"] =
      some (.jbool stream) ∧
    jget (normalizeCodexRequestBody body model stream) [.key "model"] =
      some (.jstr model) ∧
    (jhas body [.key "reasoning", .key "effort"] = false →
      goTrim (jgetString body [.key "reasoning_effort"]) ≠ "" →
      jget (normalizeCodexRequestBody body model stream)
          [.key "reasoning", .key "effort"] =
        some (.jstr (goTrim (jgetString body [.key "reasoning_effort"])))) ∧
    jget (normalizeCodexRequestBody body model stream)
      [.key "previous_response_id"] = none ∧
    jget (normalizeCodexRequestBody body model stream)
      [.key "prompt_cache_retention"] = none ∧
    jget (normalizeCodexRequestBody body model stream)
      [.key "safety_identifier"] = none ∧
    jget (normalizeCodexRequestBody body model stream)
      [.key "reasoning_effort"] = none ∧
    jhas (normalizeCodexRequestBody body model stream)
      [.key "instructions"] = true := by
  refine ⟨?_, ?_, ?_, ?_, ?_, ?_, ?_, ?_⟩
  · simp [normalizeCodexRequestBody,
      apply_ite (fun v => jget v [PathSeg.key "stream"]),
      jget_jset_key_ne, jget_jdel_key_ne, applyCodexReasoningProfile_jget_ne,
      jget_jset_self]
  · simp [normalizeCodexRequestBody,
      apply_ite (fun v => jget v [PathSeg.key "model"]),
      jget_jset_key_ne, jget_jdel_key_ne, applyCodexReasoningProfile_jget_ne,
      jget_jset_self]
  · intro h1 h2
    have h1b : (jget body [PathSeg.key "reasoning", PathSeg.key "effort"]).isSome = false := by
      simpa [jhas] using h1
    have h2b : ¬(goTrim (match jget body [PathSeg.key "reasoning_effort"] with
        | some w => jvalString w
        | none => "") = "") := by
      simpa [jgetString] using h2
    simp [normalizeCodexRequestBody,
      apply_ite (fun v => jget v [PathSeg.key "reasoning", PathSeg.key "effort"]),
      jget_jset_key_ne, jget_jdel_key_ne, applyCodexReasoningProfile_jget_ne,
      jget_jset2_self, jhas, jgetString, h1b, h2b]
  · simp [normalizeCodexRequestBody,
      apply_ite (fun v => jget v [PathSeg.key "previous_response_id"]),
      jget_jset_key_ne, jget_jdel_key_ne, applyCodexReasoningProfile_jget_ne,
      jget_jdel_top_self]
  · simp [normalizeCodexRequestBody,
      apply_ite (fun v => jget v [PathSeg.key "prompt_cache_retention"]),
      jget_jset_key_ne, jget_jdel_key_ne, applyCodexReasoningProfile_jget_ne,
      jget_jdel_top_self]
  · simp [normalizeCodexRequestBody,
      apply_ite (fun v => jget v [PathSeg.key "safety_identifier"]),
      jget_jset_key_ne, jget_jdel_key_ne, applyCodexReasoningProfile_jget_ne,
      jget_jdel_top_self]
  · simp [normalizeCodexRequestBody,
      apply_ite (fun v => jget v [PathSeg.key "reasoning_effort"]),
      jget_jset_key_ne, jget_jdel_key_ne, applyCodexReasoningProfile_jget_ne,
      jget_jdel_top_self]
  · exact ensureInstructions_jhas _

/-- Witness for C3 on a body carrying all the affected fields. -/
theorem codex_request_normalization_witness :
    jget (normalizeCodexRequestBody codexNormScenarioBody "gpt-5" true)
      [.key "reasoning", .key "effort"] = some (.jstr "high") ∧
    jget (normalizeCodexRequestBody codexNormScenarioBody "gpt-5" true)
      [.key "previous_response_id"] = none := by
  constructor
  · have h := (codex_request_normalization codexNormScenarioBody "gpt-5" true).2.2.1
      (by decide) (by decide)
    exact h
  · exact (codex_request_normalization codexNormScenarioBody "gpt-5" true).2.2.2.1

/-! ## C7: prompt-cache TTL resolution -/

theorem clampCodexPromptCacheTTL_pos (ttl : Int) :
    0 < clampCodexPromptCacheTTL ttl := by
  rw [clampCodexPromptCacheTTL]
  split_ifs <;> simp_all [goHour, goSecond, maxCodexPromptCacheTTL]

theorem clampCodexPromptCacheTTL_le (ttl : Int) :
    clampCodexPromptCacheTTL ttl ≤ maxCodexPromptCacheTTL := by
  rw [clampCodexPromptCacheTTL]
  split_ifs <;> simp_all [goHour, goSecond, maxCodexPromptCacheTTL]

theorem clampCodexPromptCacheTTL_eq_self (ttl : Int) (h1 : 0 < ttl)
    (h2 : ttl ≤ maxCodexPromptCacheTTL) :
    clampCodexPromptCacheTTL ttl = ttl := by
  rw [clampCodexPromptCacheTTL]
  split_ifs <;> omega

theorem codexPromptCacheRetentionTTL_pos (parseDuration : String → Option Int)
    (payload : JVal) : 0 < codexPromptCacheRetentionTTL parseDuration payload := by
  have hhour : (0 : Int) < goHour := by simp [goHour, goSecond]
  have hsec : (0 : Int) < goSecond := by simp [goSecond]
  cases h : jget payload [.key "prompt_cache_retention"] with
  | none => simp [codexPromptCacheRetentionTTL, h, hhour]
  | some w =>
    cases w with
    | jnum n =>
      simp only [codexPromptCacheRetentionTTL, h]
      split_ifs with hn
      · positivity
      · exact hhour
    | jstr s =>
      simp only [codexPromptCacheRetentionTTL, h]
      split_ifs with h1
      · exact hhour
      · cases hp : parseDuration (goTrim s) with
        | none => simpa [hp] using hhour
        | some d =>
          simp only [hp]
          split_ifs with h2
          · exact h2
          · exact hhour
    | jbool b => cases b <;> simp [codexPromptCacheRetentionTTL, h, hhour]
    | null => simp [codexPromptCacheRetentionTTL, h, hhour]
    | jarr xs => simp [codexPromptCacheRetentionTTL, h, hhour]
    | jobj fs => simp [codexPromptCacheRetentionTTL, h, hhour]

theorem codexPromptCacheConfigTTL_bounds (cfg : Option Config) :
    0 < codexPromptCacheConfigTTL cfg ∧
      codexPromptCacheConfigTTL cfg ≤ maxCodexPromptCacheTTL := by
  cases cfg with
  | none =>
    simp only [codexPromptCacheConfigTTL]
    exact ⟨clampCodexPromptCacheTTL_pos _, clampCodexPromptCacheTTL_le _⟩
  | some c =>
    simp only [codexPromptCacheConfigTTL]
    split_ifs <;>
      exact ⟨clampCodexPromptCacheTTL_pos _, clampCodexPromptCacheTTL_le _⟩

/-- C7: with caching not disabled by retention, the effective prompt-cache
TTL always lies in the half-open window (0, 7 days]; an explicit numeric
`prompt_cache_retention` n > 0 wins and — when inside the window — is taken
as exactly n seconds with no minimum clamping; an explicit positive string
duration wins (clamped); with no explicit retention the configured default
applies, and with no configuration at all the global default of one hour. -/
theorem codex_prompt_cache_ttl_resolution
    (parseDuration : String → Option Int) (cfg : Option Config) (payload : JVal)
    (hdis : cacheDisabledByRetention payload = false) :
    (0 < codexPromptCacheEffectiveTTL parseDuration cfg payload ∧
      codexPromptCacheEffectiveTTL parseDuration cfg payload ≤
        maxCodexPromptCacheTTL) ∧
    (∀ n : Int, jget payload [.key "prompt_cache_retention"] = some (.jnum n) →
      0 < n → n * goSecond ≤ maxCodexPromptCacheTTL →
      codexPromptCacheEffectiveTTL parseDuration cfg payload = n * goSecond) ∧
    (∀ s : String, jget payload [.key "prompt_cache_retention"] = some (.jstr s) →
      goTrim s ≠ "" →
      ∀ d : Int, parseDuration (goTrim s) = some d → 0 < d →
      codexPromptCacheEffectiveTTL parseDuration cfg payload =
        clampCodexPromptCacheTTL d) ∧
    (jget payload [.key "prompt_cache_retention"] = none →
      codexPromptCacheEffectiveTTL parseDuration cfg payload =
        codexPromptCacheConfigTTL cfg) ∧
    (jget payload [.key "prompt_cache_retention"] = none → cfg = none →
      codexPromptCacheEffectiveTTL parseDuration cfg payload = goHour) := by
  have hnotdis : ¬(cacheDisabledByRetention payload = true) := by simp [hdis]
  refine ⟨?_, ?_, ?_, ?_, ?_⟩
  · simp only [codexPromptCacheEffectiveTTL]
    split_ifs with h1 h2
    · exact ⟨clampCodexPromptCacheTTL_pos _, clampCodexPromptCacheTTL_le _⟩
    · exact codexPromptCacheConfigTTL_bounds cfg
    · exact codexPromptCacheConfigTTL_bounds cfg
  · intro n hn hpos hle
    have hhas : jhas payload [.key "prompt_cache_retention"] = true := by
      simp [jhas, hn]
    have httl : codexPromptCacheRetentionTTL parseDuration payload = n * goSecond := by
      simp only [codexPromptCacheRetentionTTL, hn]
      simp [hpos]
    have hmpos : (0 : Int) < n * goSecond := by
      have hsec : (0 : Int) < goSecond := by simp [goSecond]
      positivity
    simp only [codexPromptCacheEffectiveTTL, hhas, if_true, httl]
    rw [if_neg hnotdis, if_pos hmpos]
    exact clampCodexPromptCacheTTL_eq_self _ hmpos hle
  · intro s hs htrim d hd hdpos
    have hhas : jhas payload [.key "prompt_cache_retention"] = true := by
      simp [jhas, hs]
    have httl : codexPromptCacheRetentionTTL parseDuration payload = d := by
      simp only [codexPromptCacheRetentionTTL, hs]
      simp [htrim, hd, hdpos]
    simp only [codexPromptCacheEffectiveTTL, hhas, if_true, httl]
    rw [if_neg hnotdis, if_pos hdpos]
  · intro hnone
    have hhas : jhas payload [.key "prompt_cache_retention"] = false := by
      simp [jhas, hnone]
    simp [codexPromptCacheEffectiveTTL, hhas]
  · intro hnone hcfg
    subst hcfg
    have hhas : jhas payload [.key "prompt_cache_retention"] = false := by
      simp [jhas, hnone]
    simp only [codexPromptCacheEffectiveTTL, hhas, Bool.false_eq_true, if_false,
      codexPromptCacheConfigTTL]
    have hgh : defaultCodexPromptCacheTTLSeconds * goSecond = goHour := by
      simp [defaultCodexPromptCacheTTLSeconds, goHour, goSecond]
    rw [hgh]
    apply clampCodexPromptCacheTTL_eq_self
    · simp [goHour, goSecond]
    · simp only [goHour, goSecond, maxCodexPromptCacheTTL]
      omega

/-- Witness for C7: retention `5` gives exactly five seconds. -/
theorem codex_prompt_cache_ttl_resolution_witness :
    codexPromptCacheEffectiveTTL (fun _ => none) none
      (.jobj [("prompt_cache_retention", .jnum 5)]) = 5 * goSecond := by
  have h := (codex_prompt_cache_ttl_resolution (fun _ => none) none
    (.jobj [("prompt_cache_retention", .jnum 5)]) (by decide)).2.1 5 (by rfl)
    (by decide) (by decide)
  exact h

/-! ## C5: explicit prompt-cache key resolution -/

/-- C5: an explicit non-blank `prompt_cache_key` (top level or under
`metadata`) is returned as the cache id, written into the outbound body,
and mirrored in the `Conversation_id`/`Session_id` headers regardless of
`prompt_cache_retention`; a false-like retention with no explicit key
yields no cache id, an unchanged body, and no headers. -/
theorem codex_prompt_cache_explicit_key (cfg : Option Config)
    (uuidGen : Nat → String) (parseDuration : String → Option Int)
    (w : PromptCacheWorld) (fromFormat : String) (reqPayload : JVal)
    (model : String) (rawJSON : Option JVal) (skip : Bool) (now : Int) :
    (explicitCodexPromptCacheKey reqPayload ≠ "" →
      ¬(skip = true ∧ rawJSON.isNone = true) →
      applyCodexPromptCache cfg uuidGen parseDuration w fromFormat reqPayload
          model rawJSON skip now =
        ((some (jset (rawJSON.getD (.jobj [])) [.key "prompt_cache_key"]
            (.jstr (explicitCodexPromptCacheKey reqPayload))),
          explicitCodexPromptCacheKey reqPayload,
          [("Conversation_id", explicitCodexPromptCacheKey reqPayload),
            ("Session_id", explicitCodexPromptCacheKey reqPayload)]), w)) ∧
    (explicitCodexPromptCacheKey reqPayload = "" →
      cacheDisabledByRetention reqPayload = true →
      applyCodexPromptCache cfg uuidGen parseDuration w fromFormat reqPayload
          model rawJSON skip now = ((rawJSON, "", []), w)) := by
  constructor
  · intro hexp hskip
    rw [applyCodexPromptCache, if_neg hskip]
    have hres : resolveCodexPromptCacheID cfg uuidGen parseDuration w fromFormat
        reqPayload model now = (explicitCodexPromptCacheKey reqPayload, w) := by
      rw [resolveCodexPromptCacheID, if_pos hexp]
    rw [hres]
    simp [hexp]
  · intro hexp hdis
    by_cases hskip : skip = true ∧ rawJSON.isNone = true
    · rw [applyCodexPromptCache, if_pos hskip]
    · rw [applyCodexPromptCache, if_neg hskip]
      have hres : resolveCodexPromptCacheID cfg uuidGen parseDuration w fromFormat
          reqPayload model now = ("", w) := by
        rw [resolveCodexPromptCacheID, if_neg (by simp [hexp]), if_pos hdis]
      rw [hres]
      simp

/-- Witness for C5: an explicit key wins over retention "off"; retention
"off" alone disables caching. -/
theorem codex_prompt_cache_explicit_key_witness :
    applyCodexPromptCache none (fun n => toString n) (fun _ => none) {} "openai"
      (.jobj [("prompt_cache_key", .jstr "pck-123"),
        ("prompt_cache_retention", .jstr "off")]) "gpt-5" (some (.jobj []))
      false 0 =
      ((some (.jobj [("prompt_cache_key", .jstr "pck-123")]), "pck-123",
        [("Conversation_id", "pck-123"), ("Session_id", "pck-123")]), {}) ∧
    applyCodexPromptCache none (fun n => toString n) (fun _ => none) {} "openai"
      (.jobj [("prompt_cache_retention", .jstr "off")]) "gpt-5"
      (some (.jobj [])) false 0 = ((some (.jobj []), "", []), {}) := by
  constructor
  · have h := (codex_prompt_cache_explicit_key none (fun n => toString n)
      (fun _ => none) {} "openai"
      (.jobj [("prompt_cache_key", .jstr "pck-123"),
        ("prompt_cache_retention", .jstr "off")]) "gpt-5" (some (.jobj []))
      false 0).1 (by decide) (by simp)
    exact h
  · exact (codex_prompt_cache_explicit_key none (fun n => toString n)
      (fun _ => none) {} "openai"
      (.jobj [("prompt_cache_retention", .jstr "off")]) "gpt-5"
      (some (.jobj [])) false 0).2 (by decide) (by decide)


/-! ## C2: tool-call duplicate handling -/

/-- C2: when `Execute` meets a `call_id` that already has a stored record:
a differing args hash yields the non-retryable `duplicate_call_id_conflict`
envelope with no handler invocation; a completed record under the default
policy replays the cached envelope (same `ok` and `data`, record returned
unchanged) with `duplicate` and `replay_cached` set and no handler
invocation; under the `fail` policy it yields `duplicate_call_id_conflict`;
a record still `started` yields the retryable `duplicate_in_flight`, again
without running the handler. -/
theorem toolcall_duplicate_call_id_handling
    (hashFn : String → String) (policy : String)
    (registry : String → Option Toolcall.Definition)
    (lookup : String → Option Toolcall.Record)
    (req : Toolcall.CallRequest) (start endT : Int)
    (defn : Toolcall.Definition) (ex : Toolcall.Record)
    (hcall : goTrim req.callID ≠ "")
    (hname : goTrim req.toolName ≠ "")
    (hreg : registry (goTrim req.toolName) = some defn)
    (hex : lookup (goTrim req.callID) = some ex) :
    (ex.argsHash ≠ "" → hashFn req.rawArguments ≠ "" →
      ex.argsHash ≠ hashFn req.rawArguments →
      (Toolcall.toolcallExecute hashFn policy registry (some lookup) req start endT).2
          = false ∧
      (Toolcall.toolcallExecute hashFn policy registry (some lookup) req start
          endT).1.envelope.errorInfo =
        some ⟨"duplicate_call_id_conflict",
          "same call_id received with different arguments", false⟩) ∧
    (ex.argsHash = hashFn req.rawArguments → Toolcall.recordCompleted ex = true →
      policy = "" →
      (Toolcall.toolcallExecute hashFn policy registry (some lookup) req start endT).2
          = false ∧
      (Toolcall.toolcallExecute hashFn policy registry (some lookup) req start
          endT).1.duplicate = true ∧
      (Toolcall.toolcallExecute hashFn policy registry (some lookup) req start
          endT).1.envelope.meta.duplicate = true ∧
      (Toolcall.toolcallExecute hashFn policy registry (some lookup) req start
          endT).1.envelope.meta.replayCached = true ∧
      (Toolcall.toolcallExecute hashFn policy registry (some lookup) req start
          endT).1.envelope.ok = ex.envelope.ok ∧
      (Toolcall.toolcallExecute hashFn policy registry (some lookup) req start
          endT).1.envelope.data = ex.envelope.data ∧
      (Toolcall.toolcallExecute hashFn policy registry (some lookup) req start
          endT).1.record = ex) ∧
    (ex.argsHash = hashFn req.rawArguments → Toolcall.recordCompleted ex = true →
      policy = "fail" →
      (Toolcall.toolcallExecute hashFn policy registry (some lookup) req start endT).2
          = false ∧
      (Toolcall.toolcallExecute hashFn policy registry (some lookup) req start
          endT).1.envelope.errorInfo =
        some ⟨"duplicate_call_id_conflict",
          "duplicate completed tool call replay is disallowed", false⟩) ∧
    (ex.argsHash = hashFn req.rawArguments →
      ex.status = some Toolcall.Status.started →
      (Toolcall.toolcallExecute hashFn policy registry (some lookup) req start endT).2
          = false ∧
      (Toolcall.toolcallExecute hashFn policy registry (some lookup) req start
          endT).1.envelope.errorInfo =
        some ⟨"duplicate_in_flight",
          "duplicate tool call is already in progress", true⟩) := by
  have hcall2 : goTrim (goTrim req.callID) ≠ "" := goTrim_goTrim_ne_empty _ hcall
  have hname2 : goTrim (goTrim req.toolName) ≠ "" := goTrim_goTrim_ne_empty _ hname
  have hval : Toolcall.validateCallRequest
      { req with callID := goTrim req.callID, toolName := goTrim req.toolName } =
        none := by
    simp [Toolcall.validateCallRequest, hcall2, hname2]
  have hrun : ∀ dup, Toolcall.handleDuplicate hashFn policy
        { req with callID := goTrim req.callID, toolName := goTrim req.toolName }
        { callID := goTrim req.callID, toolName := defn.name,
          argsHash := hashFn req.rawArguments,
          status := some Toolcall.Status.started, startedAt := start }
        (some ex) endT = some dup →
      Toolcall.toolcallExecute hashFn policy registry (some lookup) req start endT =
        (dup, false) := by
    intro dup hdup
    rw [Toolcall.toolcallExecute]
    simp only [hval, hreg, if_neg hcall, hex, hdup]
  refine ⟨?_, ?_, ?_, ?_⟩
  · intro h1 h2 h3
    obtain ⟨dup, hdup⟩ : ∃ dup, Toolcall.handleDuplicate hashFn policy
        { req with callID := goTrim req.callID, toolName := goTrim req.toolName }
        { callID := goTrim req.callID, toolName := defn.name,
          argsHash := hashFn req.rawArguments,
          status := some Toolcall.Status.started, startedAt := start }
        (some ex) endT = some dup := by
      rw [Toolcall.handleDuplicate]
      split_ifs <;> exact ⟨_, rfl⟩
    rw [hrun dup hdup]
    rw [Toolcall.handleDuplicate, if_pos ⟨h1, h2, h3⟩] at hdup
    injection hdup with hdup
    subst hdup
    simp [Toolcall.failureResult]
  · intro heq hcomp hpol
    obtain ⟨dup, hdup⟩ : ∃ dup, Toolcall.handleDuplicate hashFn policy
        { req with callID := goTrim req.callID, toolName := goTrim req.toolName }
        { callID := goTrim req.callID, toolName := defn.name,
          argsHash := hashFn req.rawArguments,
          status := some Toolcall.Status.started, startedAt := start }
        (some ex) endT = some dup := by
      rw [Toolcall.handleDuplicate]
      split_ifs <;> exact ⟨_, rfl⟩
    rw [hrun dup hdup]
    rw [Toolcall.handleDuplicate,
      if_neg (fun hc => hc.2.2 heq),
      if_pos hcomp,
      if_neg (by simp [Toolcall.duplicateCompletedPolicy, hpol])] at hdup
    injection hdup with hdup
    subst hdup
    refine ⟨rfl, rfl, ?_, ?_, rfl, rfl, rfl⟩ <;>
      (dsimp only; split_ifs <;> rfl)
  · intro heq hcomp hpol
    obtain ⟨dup, hdup⟩ : ∃ dup, Toolcall.handleDuplicate hashFn policy
        { req with callID := goTrim req.callID, toolName := goTrim req.toolName }
        { callID := goTrim req.callID, toolName := defn.name,
          argsHash := hashFn req.rawArguments,
          status := some Toolcall.Status.started, startedAt := start }
        (some ex) endT = some dup := by
      rw [Toolcall.handleDuplicate]
      split_ifs <;> exact ⟨_, rfl⟩
    rw [hrun dup hdup]
    rw [Toolcall.handleDuplicate,
      if_neg (fun hc => hc.2.2 heq),
      if_pos hcomp,
      if_pos (by simp [Toolcall.duplicateCompletedPolicy, hpol])] at hdup
    injection hdup with hdup
    subst hdup
    simp [Toolcall.failureResult]
  · intro heq hst
    obtain ⟨dup, hdup⟩ : ∃ dup, Toolcall.handleDuplicate hashFn policy
        { req with callID := goTrim req.callID, toolName := goTrim req.toolName }
        { callID := goTrim req.callID, toolName := defn.name,
          argsHash := hashFn req.rawArguments,
          status := some Toolcall.Status.started, startedAt := start }
        (some ex) endT = some dup := by
      rw [Toolcall.handleDuplicate]
      split_ifs <;> exact ⟨_, rfl⟩
    rw [hrun dup hdup]
    rw [Toolcall.handleDuplicate,
      if_neg (fun hc => hc.2.2 heq),
      if_neg (by simp [Toolcall.recordCompleted, hst])] at hdup
    injection hdup with hdup
    subst hdup
    simp [Toolcall.failureResult]

/-- Witness for C2: a stored in-flight record for `c1` makes a second
`Execute` fail with `duplicate_in_flight` and not run the handler. -/
theorem toolcall_duplicate_call_id_handling_witness :
    (Toolcall.toolcallExecute (fun _ => "h1") ""
        (fun n => if n = "echo" then some { name := "echo" } else none)
        (some (fun c => if c = "c1" then
          some { callID := "c1", toolName := "echo", argsHash := "h1",
                 status := some Toolcall.Status.started }
          else none))
        { callID := "c1", toolName := "echo", rawArguments := "" } 0 5).2 =
      false ∧
    (Toolcall.toolcallExecute (fun _ => "h1") ""
        (fun n => if n = "echo" then some { name := "echo" } else none)
        (some (fun c => if c = "c1" then
          some { callID := "c1", toolName := "echo", argsHash := "h1",
                 status := some Toolcall.Status.started }
          else none))
        { callID := "c1", toolName := "echo", rawArguments := "" } 0
        5).1.envelope.errorInfo =
      some ⟨"duplicate_in_flight", "duplicate tool call is already in progress",
        true⟩ :=
  (toolcall_duplicate_call_id_handling (fun _ => "h1") ""
    (fun n => if n = "echo" then some { name := "echo" } else none)
    (fun c => if c = "c1" then
      some { callID := "c1", toolName := "echo", argsHash := "h1",
             status := some Toolcall.Status.started }
      else none)
    { callID := "c1", toolName := "echo", rawArguments := "" } 0 5
    { name := "echo" }
    { callID := "c1", toolName := "echo", argsHash := "h1",
      status := some Toolcall.Status.started }
    (by decide) (by decide) (by rfl) (by rfl)).2.2.2 rfl rfl


/-! ## C4: Codex non-streaming stream folding -/

/-- C4: scanning a 2xx Codex SSE body, the executor selects the (first)
`response.completed` data event, publishes the usage parsed from exactly
that event — so never more than one publication — and returns the
translation of that event; a body with no completed event fails with the
408 stream-disconnected status error. -/
theorem codex_execute_via_stream_selection
    (parseUsage : JVal → Option UsageDetail) (translate : JVal → String)
    (lines : List SSELine) :
    (∀ pre j post, lines = pre ++ SSELine.data j :: post →
      (∀ l ∈ pre, codexCompletedLine l = none) →
      jgetString j [.key "type"] = "response.completed" →
      executeViaStreamScan parseUsage translate lines =
        ((parseUsage j).toList, .ok (translate j))) ∧
    ((∀ l ∈ lines, codexCompletedLine l = none) →
      executeViaStreamScan parseUsage translate lines =
        ([], .error ⟨408,
          "stream error: stream disconnected before completion: stream closed before response.completed"⟩)) ∧
    (executeViaStreamScan parseUsage translate lines).1.length ≤ 1 := by
  refine ⟨?_, ?_, ?_⟩
  · intro pre
    induction pre generalizing lines with
    | nil =>
      intro j post hlines hpre htype
      subst hlines
      simp only [List.nil_append]
      rw [executeViaStreamScan]
      have hcl : codexCompletedLine (SSELine.data j) = some j := by
        rw [codexCompletedLine, if_pos htype]
      rw [hcl]
      cases hp : parseUsage j <;> simp [hp, Option.toList]
    | cons l pre ih =>
      intro j post hlines hpre htype
      subst hlines
      simp only [List.cons_append]
      rw [executeViaStreamScan]
      rw [hpre l (by simp)]
      exact ih (pre ++ SSELine.data j :: post) j post rfl
        (fun x hx => hpre x (by simp [hx])) htype
  · intro hall
    induction lines with
    | nil => rfl
    | cons l rest ih =>
      simp only [executeViaStreamScan, hall l (by simp)]
      exact ih (fun x hx => hall x (by simp [hx]))
  · induction lines with
    | nil => simp [executeViaStreamScan]
    | cons l rest ih =>
      simp only [executeViaStreamScan]
      cases hcl : codexCompletedLine l with
      | some j => cases hp : parseUsage j <;> simp [hp, Option.toList]
      | none => exact ih

/-- Witness for C4 on the scenario body: created event then completed
event; the completed event is selected, its usage published once. -/
theorem codex_execute_via_stream_selection_witness :
    executeViaStreamScan
      (fun _ => some { inputTokens := 1, outputTokens := 2, totalTokens := 3 })
      (fun j => jraw j)
      [SSELine.data (.jobj [("type", .jstr "response.created")]),
        SSELine.data codexCompletedScenarioEvent] =
      ([{ inputTokens := 1, outputTokens := 2, totalTokens := 3 }],
        .ok (jraw codexCompletedScenarioEvent)) := by
  have h := (codex_execute_via_stream_selection
    (fun _ => some { inputTokens := 1, outputTokens := 2, totalTokens := 3 })
    (fun j => jraw j)
    [SSELine.data (.jobj [("type", .jstr "response.created")]),
      SSELine.data codexCompletedScenarioEvent]).1
    [SSELine.data (.jobj [("type", .jstr "response.created")])]
    codexCompletedScenarioEvent [] rfl
    (by
      intro l hl
      rw [List.mem_singleton.mp hl]
      rfl)
    (by rfl)
  exact h


/-! ## C9: Gemini CLI model fallback on 429 -/

/-- C9: the Gemini CLI non-streaming fallback loop attempts the models in
order; after a prefix of 429 responses, the first 2xx attempt ends the
loop, publishes its usage exactly once, and returns its translated
payload; a non-2xx non-429 status is surfaced immediately with that status
and body; when every model yields 429 the last 429 body is surfaced with
status 429. -/
theorem gemini_loop_first_2xx (upstream : String → Int × String)
    (parseUsage : String → UsageDetail) (translate : String → String → String)
    (pre : List String) (m : String) (post : List String)
    (h429 : ∀ m2 ∈ pre, (upstream m2).1 = 429)
    (hlo : 200 ≤ (upstream m).1) (hhi : (upstream m).1 < 300) :
    ∀ ls lb, geminiCLIExecuteLoop upstream parseUsage translate
        (pre ++ m :: post) ls lb =
      { attempts := pre ++ [m], published := [parseUsage (upstream m).2],
        result := .ok (translate m (upstream m).2) } := by
  induction pre with
  | nil =>
    intro ls lb
    simp only [List.nil_append]
    rcases hup : upstream m with ⟨status, data⟩
    rw [hup] at hlo hhi
    simp only [geminiCLIExecuteLoop, hup]
    rw [if_pos ⟨hlo, hhi⟩]
  | cons p pre ih =>
    intro ls lb
    have hp : (upstream p).1 = 429 := h429 p (by simp)
    simp only [List.cons_append]
    rcases hup : upstream p with ⟨status, data⟩
    rw [hup] at hp
    simp only [geminiCLIExecuteLoop, hup]
    simp only at hp
    rw [if_neg (by omega), if_pos hp,
      ih (fun x hx => h429 x (by simp [hx])) _ _]

theorem gemini_loop_fatal (upstream : String → Int × String)
    (parseUsage : String → UsageDetail) (translate : String → String → String)
    (pre : List String) (m : String) (post : List String)
    (h429 : ∀ m2 ∈ pre, (upstream m2).1 = 429)
    (hbad : ¬(200 ≤ (upstream m).1 ∧ (upstream m).1 < 300))
    (hnot429 : (upstream m).1 ≠ 429) :
    ∀ ls lb, geminiCLIExecuteLoop upstream parseUsage translate
        (pre ++ m :: post) ls lb =
      { attempts := pre ++ [m], published := [],
        result := .error ⟨(upstream m).1, (upstream m).2⟩ } := by
  induction pre with
  | nil =>
    intro ls lb
    simp only [List.nil_append]
    rcases hup : upstream m with ⟨status, data⟩
    rw [hup] at hbad hnot429
    simp only at hbad hnot429
    simp only [geminiCLIExecuteLoop, hup]
    rw [if_neg hbad, if_neg hnot429]
  | cons p pre ih =>
    intro ls lb
    have hp : (upstream p).1 = 429 := h429 p (by simp)
    simp only [List.cons_append]
    rcases hup : upstream p with ⟨status, data⟩
    rw [hup] at hp
    simp only at hp
    simp only [geminiCLIExecuteLoop, hup]
    rw [if_neg (by omega), if_pos hp,
      ih (fun x hx => h429 x (by simp [hx])) _ _]

theorem gemini_loop_all_429 (upstream : String → Int × String)
    (parseUsage : String → UsageDetail) (translate : String → String → String)
    (models : List String) (hne : models ≠ [])
    (h429 : ∀ m ∈ models, (upstream m).1 = 429) :
    ∀ ls lb, geminiCLIExecuteLoop upstream parseUsage translate models ls lb =
      { attempts := models, published := [],
        result := .error ⟨429, (upstream (models.getLast hne)).2⟩ } := by
  induction models with
  | nil => exact absurd rfl hne
  | cons a rest ih =>
    intro ls lb
    have ha : (upstream a).1 = 429 := h429 a (by simp)
    rcases hup : upstream a with ⟨status, data⟩
    rw [hup] at ha
    simp only at ha
    simp only [geminiCLIExecuteLoop, hup]
    rw [if_neg (by omega), if_pos ha]
    cases rest with
    | nil =>
      rw [geminiCLIExecuteLoop]
      subst ha
      simp [List.getLast, hup]
    | cons b bs =>
      have hne2 : b :: bs ≠ [] := by simp
      rw [ih hne2 (fun x hx => h429 x (by simp [hx])) status data]
      have hlast : (a :: b :: bs).getLast hne = (b :: bs).getLast hne2 :=
        List.getLast_cons hne2
      simp [hlast]

theorem gemini_cli_model_fallback
    (upstream : String → Int × String) (parseUsage : String → UsageDetail)
    (translate : String → String → String) (models : List String) :
    (∀ pre m post, models = pre ++ m :: post →
      (∀ m2 ∈ pre, (upstream m2).1 = 429) →
      200 ≤ (upstream m).1 → (upstream m).1 < 300 →
      geminiCLIExecute upstream parseUsage translate models =
        { attempts := pre ++ [m], published := [parseUsage (upstream m).2],
          result := .ok (translate m (upstream m).2) }) ∧
    (∀ pre m post, models = pre ++ m :: post →
      (∀ m2 ∈ pre, (upstream m2).1 = 429) →
      ¬(200 ≤ (upstream m).1 ∧ (upstream m).1 < 300) →
      (upstream m).1 ≠ 429 →
      geminiCLIExecute upstream parseUsage translate models =
        { attempts := pre ++ [m], published := [],
          result := .error ⟨(upstream m).1, (upstream m).2⟩ }) ∧
    (∀ hne : models ≠ [], (∀ m ∈ models, (upstream m).1 = 429) →
      geminiCLIExecute upstream parseUsage translate models =
        { attempts := models, published := [],
          result := .error ⟨429, (upstream (models.getLast hne)).2⟩ }) := by
  refine ⟨?_, ?_, ?_⟩
  · intro pre m post hmodels h429 hlo hhi
    subst hmodels
    exact gemini_loop_first_2xx upstream parseUsage translate pre m post h429 hlo
      hhi 0 ""
  · intro pre m post hmodels h429 hbad hnot429
    subst hmodels
    exact gemini_loop_fatal upstream parseUsage translate pre m post h429 hbad
      hnot429 0 ""
  · intro hne h429
    exact gemini_loop_all_429 upstream parseUsage translate models hne h429 0 ""

/-- Witness for C9 on the scenario list `[base, alt]` with a 429 for `base`
and a 200 for `alt`. -/
theorem gemini_cli_model_fallback_witness :
    geminiCLIExecute
      (fun m => if m = "base" then ((429 : Int), "rate") else (200, "okbody"))
      (fun _ => { inputTokens := 1 }) (fun m d => m ++ ":" ++ d)
      ["base", "alt"] =
      { attempts := ["base", "alt"], published := [{ inputTokens := 1 }],
        result := .ok "alt:okbody" } := by
  have h := (gemini_cli_model_fallback
    (fun m => if m = "base" then ((429 : Int), "rate") else (200, "okbody"))
    (fun _ => { inputTokens := 1 }) (fun m d => m ++ ":" ++ d)
    ["base", "alt"]).1 ["base"] "alt" [] rfl
    (by
      intro m2 hm
      rw [List.mem_singleton.mp hm]
      rfl)
    (by decide) (by decide)
  exact h


/-! ## C10: ExecuteStream producer emission order -/

/-- C10: every chunk the producer goroutine emits has exactly one of its
payload and error fields set; the chunks translated from the synthetic
`[DONE]` sentinel are emitted after the scan loop ends whether the scanner
stopped at EOF or with an error; on a scanner error exactly one terminal
chunk carrying that error follows them and is the last emission before
the channel close; with no scanner error no error chunk is ever emitted. -/
theorem base_executor_stream_chunks {σ ε : Type} (transform : String → String)
    (translate : σ → String → σ × List String) (s0 : σ) (lines : List String) :
    (∀ scanErr : Option ε,
      ∀ c ∈ executeStreamChunks transform translate s0 lines scanErr,
        (c.payload.isSome ∧ c.errv = none) ∨ (c.payload = none ∧ c.errv.isSome)) ∧
    (∀ e : ε, executeStreamChunks transform translate s0 lines (some e) =
        executeStreamChunks transform translate s0 lines none ++
          [{ errv := some e }]) ∧
    (∀ e : ε,
      (executeStreamChunks transform translate s0 lines (some e)).getLast? =
        some { errv := some e } ∧
      ((executeStreamChunks transform translate s0 lines (some e)).filter
          (fun c => c.errv.isSome)).length = 1) ∧
    ((executeStreamChunks transform translate s0 lines (none : Option ε)).filter
        (fun c => c.errv.isSome)).length = 0 := by
  refine ⟨?_, ?_, ?_, ?_⟩
  · intro scanErr c hc
    simp only [executeStreamChunks, List.mem_append] at hc
    rcases hc with (hc | hc) | hc
    · rcases List.mem_map.mp hc with ⟨a, _, rfl⟩
      exact Or.inl ⟨rfl, rfl⟩
    · rcases List.mem_map.mp hc with ⟨a, _, rfl⟩
      exact Or.inl ⟨rfl, rfl⟩
    · cases scanErr with
      | none => simp at hc
      | some e =>
        simp only [List.mem_singleton] at hc
        subst hc
        exact Or.inr ⟨rfl, rfl⟩
  · intro e
    simp [executeStreamChunks]
  · intro e
    constructor
    · simp only [executeStreamChunks, ← List.append_assoc]
      exact List.getLast?_concat _
    · simp [executeStreamChunks, List.filter_append, List.filter_map,
        Function.comp_def]
  · simp [executeStreamChunks, List.filter_append, List.filter_map,
      Function.comp_def]

theorem base_executor_stream_chunks_witness :
    ({ payload := some "A" } : StreamChunk Nat) ∈
      executeStreamChunks (fun l => l) (fun (s : Nat) l => (s + 1, [l])) 0
        ["A"] (some 7) ∧
    ((({ payload := some "A" } : StreamChunk Nat).payload.isSome ∧
        ({ payload := some "A" } : StreamChunk Nat).errv = none) ∨
      (({ payload := some "A" } : StreamChunk Nat).payload = none ∧
        ({ payload := some "A" } : StreamChunk Nat).errv.isSome)) := by
  have hm : ({ payload := some "A" } : StreamChunk Nat) ∈
      executeStreamChunks (fun l => l) (fun (s : Nat) l => (s + 1, [l])) 0
        ["A"] (some 7) := List.Mem.head _
  exact ⟨hm, (base_executor_stream_chunks _ _ _ _).1 (some 7) _ hm⟩

/-! ## C6: prompt-cache id stability across sequential calls -/

theorem assocGet_assocSet_self {α : Type} (l : List (String × α)) (k : String)
    (v : α) : assocGet (assocSet l k v) k = some v := by
  induction l with
  | nil => simp [assocGet, assocSet]
  | cons kv rest ih =>
    obtain ⟨k2, w⟩ := kv
    by_cases h : k2 = k
    · subst h
      simp [assocGet, assocSet]
    · simp [assocGet, assocSet, h, ih]

theorem assocGet_redisDel_self (st : RedisState) (k : String) :
    assocGet (redisDel st k).entries k = none := by
  simp only [redisDel]
  generalize st.entries = l
  induction l with
  | nil => simp [assocGet]
  | cons kv rest ih =>
    obtain ⟨k2, v⟩ := kv
    by_cases h : k2 = k
    · subst h
      simpa [List.filter] using ih
    · simpa [List.filter, h, assocGet] using ih

theorem string_append_right_cancel (a b c : String) (h : a ++ c = b ++ c) :
    a = b := by
  have hd : a.data ++ c.data = b.data ++ c.data := by
    simpa using congrArg String.data h
  exact String.ext (List.append_cancel_right hd)

theorem getOrCreateCodexPromptCacheRedis_inactive (cfg : Option Config)
    (uuidGen : Nat → String) (w : PromptCacheWorld) (key : String)
    (ttl now : Int) (hurl : (redisConfigFrom cfg).1 = "") :
    getOrCreateCodexPromptCacheRedis cfg uuidGen w key ttl now = (none, w) := by
  rcases hrc : redisConfigFrom cfg with ⟨url, kp, cttl⟩
  have hu0 : url = "" := by simpa [hrc] using hurl
  simp [getOrCreateCodexPromptCacheRedis, hrc, hu0]

theorem redisLoop_write (uuidGen : Nat → String) (rkey : String) (t now : Int)
    (fuel : Nat) (w : PromptCacheWorld)
    (hmiss : redisGet w.redis now rkey = none) :
    getOrCreateCodexPromptCacheRedisLoop uuidGen rkey t now (fuel + 1) w =
      (some (uuidGen w.uuidCounter),
        { localMap := w.localMap,
          redis := ⟨assocSet w.redis.entries rkey (uuidGen w.uuidCounter, now + t)⟩,
          uuidCounter := w.uuidCounter + 1 }) := by
  have hval : codexPromptCacheRedisGetValue w.redis now rkey = .missing := by
    simp [codexPromptCacheRedisGetValue, hmiss]
  simp only [getOrCreateCodexPromptCacheRedisLoop]
  rw [hval]
  simp only [drawUUID, redisSetNX, hmiss]
  simp

theorem getOrCreateCodexPromptCacheID_local_hit (cfg : Option Config)
    (uuidGen : Nat → String) (w : PromptCacheWorld) (model userID : String)
    (ttl now : Int) (e : CodexCacheEntry)
    (hurl : (redisConfigFrom cfg).1 = "")
    (hm : goTrim model ≠ "") (hu : goTrim userID ≠ "")
    (hget : assocGet w.localMap (goTrim model ++ "-" ++ goTrim userID) = some e)
    (hexp : now < e.expire) :
    getOrCreateCodexPromptCacheID cfg uuidGen w model userID ttl now =
      (e.id, w) := by
  have hc : getCodexCache w now (goTrim model ++ "-" ++ goTrim userID) = some e := by
    simp [getCodexCache, hget, hexp]
  simp only [getOrCreateCodexPromptCacheID]
  rw [if_neg (by simp [hm, hu]),
    getOrCreateCodexPromptCacheRedis_inactive cfg uuidGen w _ ttl now hurl]
  simp only [hc]

theorem getOrCreateCodexPromptCacheID_local_fresh (cfg : Option Config)
    (uuidGen : Nat → String) (w : PromptCacheWorld) (model userID : String)
    (ttl now : Int)
    (hurl : (redisConfigFrom cfg).1 = "")
    (hm : goTrim model ≠ "") (hu : goTrim userID ≠ "")
    (hmiss : getCodexCache w now (goTrim model ++ "-" ++ goTrim userID) = none) :
    getOrCreateCodexPromptCacheID cfg uuidGen w model userID ttl now =
      (uuidGen w.uuidCounter,
        { localMap := assocSet w.localMap (goTrim model ++ "-" ++ goTrim userID)
            ⟨uuidGen w.uuidCounter, now + clampCodexPromptCacheTTL ttl⟩,
          redis := w.redis,
          uuidCounter := w.uuidCounter + 1 }) := by
  simp only [getOrCreateCodexPromptCacheID]
  rw [if_neg (by simp [hm, hu]),
    getOrCreateCodexPromptCacheRedis_inactive cfg uuidGen w _ ttl now hurl]
  simp only [hmiss]
  simp [drawUUID, setCodexCache]


theorem getCodexCache_some_inv (w : PromptCacheWorld) (now : Int) (key : String)
    (e : CodexCacheEntry) (h : getCodexCache w now key = some e) :
    assocGet w.localMap key = some e ∧ now < e.expire := by
  unfold getCodexCache at h
  rcases hg : assocGet w.localMap key with _ | e2
  · rw [hg] at h
    simp at h
  · rw [hg] at h
    by_cases hn : now < e2.expire
    · simp [hn] at h
      subst h
      exact ⟨rfl, hn⟩
    · simp [hn] at h

theorem getOrCreateCodexPromptCacheID_redis_hit (cfg : Option Config)
    (uuidGen : Nat → String) (w : PromptCacheWorld) (model userID raw : String)
    (ttl now expv : Int)
    (hurl : (redisConfigFrom cfg).1 ≠ "")
    (hm : goTrim model ≠ "") (hu : goTrim userID ≠ "")
    (hget : assocGet w.redis.entries
        ((redisConfigFrom cfg).2.1 ++ (goTrim model ++ "-" ++ goTrim userID)) =
      some (raw, expv))
    (hexp : now < expv) (htrim : goTrim raw ≠ "") :
    getOrCreateCodexPromptCacheID cfg uuidGen w model userID ttl now =
      (goTrim raw, w) := by
  rcases hrc : redisConfigFrom cfg with ⟨url, kp, cttl⟩
  have hu0 : url ≠ "" := by simpa [hrc] using hurl
  have hget2 : assocGet w.redis.entries
      (kp ++ (goTrim model ++ "-" ++ goTrim userID)) = some (raw, expv) := by
    simpa [hrc] using hget
  have hval : codexPromptCacheRedisGetValue w.redis now
      (kp ++ (goTrim model ++ "-" ++ goTrim userID)) = .valid (goTrim raw) := by
    simp [codexPromptCacheRedisGetValue, redisGet, hget2, hexp, htrim]
  have hloop : ∀ t : Int, getOrCreateCodexPromptCacheRedisLoop uuidGen
      (kp ++ (goTrim model ++ "-" ++ goTrim userID)) t now 2 w =
      (some (goTrim raw), w) := by
    intro t
    rw [show (2 : Nat) = 1 + 1 from rfl]
    simp only [getOrCreateCodexPromptCacheRedisLoop]
    rw [hval]
  have hred : getOrCreateCodexPromptCacheRedis cfg uuidGen w
      (goTrim model ++ "-" ++ goTrim userID) ttl now =
      (some (goTrim raw), w) := by
    simp only [getOrCreateCodexPromptCacheRedis, hrc]
    rw [if_neg hu0, hloop]
  simp only [getOrCreateCodexPromptCacheID]
  rw [if_neg (by simp [hm, hu])]
  simp only [hred]

theorem getOrCreateCodexPromptCacheID_local_stable (cfg : Option Config)
    (uuidGen : Nat → String) (w : PromptCacheWorld) (model u1 u2 : String)
    (ttl1 ttl2 now1 now2 : Int) (id1 : String) (w1 : PromptCacheWorld)
    (hurl : (redisConfigFrom cfg).1 = "")
    (hm : goTrim model ≠ "") (hu1 : goTrim u1 ≠ "")
    (hu2 : goTrim u2 = goTrim u1)
    (h1 : getOrCreateCodexPromptCacheID cfg uuidGen w model u1 ttl1 now1 =
      (id1, w1))
    (hexp : ∀ e, assocGet w1.localMap (goTrim model ++ "-" ++ goTrim u1) =
      some e → now2 < e.expire) :
    getOrCreateCodexPromptCacheID cfg uuidGen w1 model u2 ttl2 now2 =
      (id1, w1) := by
  have hentry : ∃ e, assocGet w1.localMap (goTrim model ++ "-" ++ goTrim u1) =
      some e ∧ e.id = id1 := by
    rcases hc : getCodexCache w now1 (goTrim model ++ "-" ++ goTrim u1)
      with _ | e0
    · rw [getOrCreateCodexPromptCacheID_local_fresh cfg uuidGen w model u1 ttl1
        now1 hurl hm hu1 hc] at h1
      injection h1 with ha hb
      subst ha
      subst hb
      exact ⟨_, assocGet_assocSet_self _ _ _, rfl⟩
    · obtain ⟨hg0, hn0⟩ := getCodexCache_some_inv w now1 _ e0 hc
      rw [getOrCreateCodexPromptCacheID_local_hit cfg uuidGen w model u1 ttl1
        now1 e0 hurl hm hu1 hg0 hn0] at h1
      injection h1 with ha hb
      subst ha
      subst hb
      exact ⟨e0, hg0, rfl⟩
  obtain ⟨e, he, heid⟩ := hentry
  have hres := getOrCreateCodexPromptCacheID_local_hit cfg uuidGen w1 model u2
    ttl2 now2 e hurl hm (by rw [hu2]; exact hu1) (by rw [hu2]; exact he)
    (hexp e he)
  rw [hres, heid]


theorem getOrCreateCodexPromptCacheRedis_write (cfg : Option Config)
    (uuidGen : Nat → String) (w : PromptCacheWorld) (key : String)
    (ttl now : Int)
    (hurl : (redisConfigFrom cfg).1 ≠ "")
    (hmiss : redisGet w.redis now ((redisConfigFrom cfg).2.1 ++ key) = none) :
    ∃ tX : Int, getOrCreateCodexPromptCacheRedis cfg uuidGen w key ttl now =
      (some (uuidGen w.uuidCounter),
        { localMap := w.localMap,
          redis := ⟨assocSet w.redis.entries ((redisConfigFrom cfg).2.1 ++ key)
            (uuidGen w.uuidCounter, now + tX)⟩,
          uuidCounter := w.uuidCounter + 1 }) := by
  rcases hrc : redisConfigFrom cfg with ⟨url, kp, cttl⟩
  have hu0 : url ≠ "" := by simpa [hrc] using hurl
  have hmiss2 : redisGet w.redis now (kp ++ key) = none := by
    simpa [hrc] using hmiss
  refine ⟨if (if ttl > 0 then clampCodexPromptCacheTTL ttl else cttl) ≤ 0 then
      clampCodexPromptCacheTTL (defaultCodexPromptCacheTTLSeconds * goSecond)
    else if ttl > 0 then clampCodexPromptCacheTTL ttl else cttl, ?_⟩
  simp only [getOrCreateCodexPromptCacheRedis, hrc]
  rw [if_neg hu0, show (2 : Nat) = 1 + 1 from rfl]
  exact redisLoop_write uuidGen (kp ++ key) _ now 1 w hmiss2

theorem getOrCreateCodexPromptCacheRedis_repair (cfg : Option Config)
    (uuidGen : Nat → String) (w : PromptCacheWorld) (key raw0 : String)
    (ttl now exp0 : Int)
    (hurl : (redisConfigFrom cfg).1 ≠ "")
    (hv : assocGet w.redis.entries ((redisConfigFrom cfg).2.1 ++ key) =
      some (raw0, exp0))
    (hnow : now < exp0) (htr : goTrim raw0 = "") :
    ∃ tX : Int, getOrCreateCodexPromptCacheRedis cfg uuidGen w key ttl now =
      (some (uuidGen w.uuidCounter),
        { localMap := w.localMap,
          redis := ⟨assocSet
            (redisDel w.redis ((redisConfigFrom cfg).2.1 ++ key)).entries
            ((redisConfigFrom cfg).2.1 ++ key)
            (uuidGen w.uuidCounter, now + tX)⟩,
          uuidCounter := w.uuidCounter + 1 }) := by
  rcases hrc : redisConfigFrom cfg with ⟨url, kp, cttl⟩
  have hu0 : url ≠ "" := by simpa [hrc] using hurl
  have hv2 : assocGet w.redis.entries (kp ++ key) = some (raw0, exp0) := by
    simpa [hrc] using hv
  have hval : codexPromptCacheRedisGetValue w.redis now (kp ++ key) =
      .invalid := by
    simp [codexPromptCacheRedisGetValue, redisGet, hv2, hnow, htr]
  have hmissd : redisGet (redisDel w.redis (kp ++ key)) now (kp ++ key) =
      none := by
    simp [redisGet, assocGet_redisDel_self]
  refine ⟨if (if ttl > 0 then clampCodexPromptCacheTTL ttl else cttl) ≤ 0 then
      clampCodexPromptCacheTTL (defaultCodexPromptCacheTTLSeconds * goSecond)
    else if ttl > 0 then clampCodexPromptCacheTTL ttl else cttl, ?_⟩
  simp only [getOrCreateCodexPromptCacheRedis, hrc]
  rw [if_neg hu0, show (2 : Nat) = 1 + 1 from rfl]
  simp only [getOrCreateCodexPromptCacheRedisLoop]
  rw [hval, show (1 : Nat) = 0 + 1 from rfl]
  exact redisLoop_write uuidGen (kp ++ key) _ now 0
    { w with redis := redisDel w.redis (kp ++ key) } hmissd

theorem getOrCreateCodexPromptCacheID_redis_fresh (cfg : Option Config)
    (uuidGen : Nat → String) (w : PromptCacheWorld) (model userID : String)
    (ttl now : Int) (res : Option String × PromptCacheWorld)
    (hurl : (redisConfigFrom cfg).1 ≠ "")
    (hm : goTrim model ≠ "") (hu : goTrim userID ≠ "")
    (hred : getOrCreateCodexPromptCacheRedis cfg uuidGen w
        (goTrim model ++ "-" ++ goTrim userID) ttl now = res)
    (hsome : res.1.isSome) :
    getOrCreateCodexPromptCacheID cfg uuidGen w model userID ttl now =
      (res.1.getD "", res.2) := by
  simp only [getOrCreateCodexPromptCacheID]
  rw [if_neg (by simp [hm, hu])]
  rcases res with ⟨ov, w2⟩
  rcases ov with _ | v
  · simp at hsome
  · simp only [hred]
    rfl

theorem getOrCreateCodexPromptCacheID_redis_stable (cfg : Option Config)
    (uuidGen : Nat → String) (w : PromptCacheWorld) (model u1 u2 : String)
    (ttl1 ttl2 now1 now2 : Int) (id1 : String) (w1 : PromptCacheWorld)
    (hurl : (redisConfigFrom cfg).1 ≠ "")
    (hm : goTrim model ≠ "") (hu1 : goTrim u1 ≠ "")
    (hu2 : goTrim u2 = goTrim u1)
    (huuidA : goTrim (uuidGen w.uuidCounter) = uuidGen w.uuidCounter)
    (huuidB : uuidGen w.uuidCounter ≠ "")
    (h1 : getOrCreateCodexPromptCacheID cfg uuidGen w model u1 ttl1 now1 =
      (id1, w1))
    (hexp : ∀ raw expv, assocGet w1.redis.entries
        ((redisConfigFrom cfg).2.1 ++ (goTrim model ++ "-" ++ goTrim u1)) =
      some (raw, expv) → now2 < expv) :
    getOrCreateCodexPromptCacheID cfg uuidGen w1 model u2 ttl2 now2 =
      (id1, w1) := by
  have hentry : ∃ raw expv, assocGet w1.redis.entries
      ((redisConfigFrom cfg).2.1 ++ (goTrim model ++ "-" ++ goTrim u1)) =
      some (raw, expv) ∧ goTrim raw = id1 ∧ goTrim raw ≠ "" := by
    rcases hv : assocGet w.redis.entries
        ((redisConfigFrom cfg).2.1 ++ (goTrim model ++ "-" ++ goTrim u1))
      with _ | rp
    · have hmiss : redisGet w.redis now1
          ((redisConfigFrom cfg).2.1 ++ (goTrim model ++ "-" ++ goTrim u1)) =
          none := by
        simp [redisGet, hv]
      obtain ⟨tX, hred⟩ := getOrCreateCodexPromptCacheRedis_write cfg uuidGen w
        (goTrim model ++ "-" ++ goTrim u1) ttl1 now1 hurl hmiss
      rw [getOrCreateCodexPromptCacheID_redis_fresh cfg uuidGen w model u1 ttl1
        now1 _ hurl hm hu1 hred (by simp)] at h1
      injection h1 with ha hb
      subst ha
      subst hb
      exact ⟨_, _, assocGet_assocSet_self _ _ _,
        by simp [huuidA], by simp [huuidA, huuidB]⟩
    · obtain ⟨raw0, exp0⟩ := rp
      by_cases hnow : now1 < exp0
      · by_cases htr : goTrim raw0 = ""
        · obtain ⟨tX, hred⟩ := getOrCreateCodexPromptCacheRedis_repair cfg
            uuidGen w (goTrim model ++ "-" ++ goTrim u1) raw0 ttl1 now1 exp0
            hurl hv hnow htr
          rw [getOrCreateCodexPromptCacheID_redis_fresh cfg uuidGen w model u1
            ttl1 now1 _ hurl hm hu1 hred (by simp)] at h1
          injection h1 with ha hb
          subst ha
          subst hb
          exact ⟨_, _, assocGet_assocSet_self _ _ _,
            by simp [huuidA], by simp [huuidA, huuidB]⟩
        · rw [getOrCreateCodexPromptCacheID_redis_hit cfg uuidGen w model u1
            raw0 ttl1 now1 exp0 hurl hm hu1 hv hnow htr] at h1
          injection h1 with ha hb
          subst ha
          subst hb
          exact ⟨raw0, exp0, hv, rfl, htr⟩
      · have hmiss : redisGet w.redis now1
            ((redisConfigFrom cfg).2.1 ++ (goTrim model ++ "-" ++ goTrim u1)) =
            none := by
          simp [redisGet, hv, hnow]
        obtain ⟨tX, hred⟩ := getOrCreateCodexPromptCacheRedis_write cfg uuidGen
          w (goTrim model ++ "-" ++ goTrim u1) ttl1 now1 hurl hmiss
        rw [getOrCreateCodexPromptCacheID_redis_fresh cfg uuidGen w model u1
          ttl1 now1 _ hurl hm hu1 hred (by simp)] at h1
        injection h1 with ha hb
        subst ha
        subst hb
        exact ⟨_, _, assocGet_assocSet_self _ _ _,
          by simp [huuidA], by simp [huuidA, huuidB]⟩
  obtain ⟨raw, expv, hg, hid, htr⟩ := hentry
  have hres := getOrCreateCodexPromptCacheID_redis_hit cfg uuidGen w1 model u2
    raw ttl2 now2 expv hurl hm (by rw [hu2]; exact hu1)
    (by rw [hu2]; exact hg) (hexp raw expv hg) htr
  rw [hres, hid]

theorem applyCodexPromptCache_resolved (cfg : Option Config)
    (uuidGen : Nat → String) (parseDuration : String → Option Int)
    (w : PromptCacheWorld) (ff : String) (p : JVal) (model : String)
    (raw : Option JVal) (now : Int) :
    (applyCodexPromptCache cfg uuidGen parseDuration w ff p model raw false
        now).1.2.1 =
      (resolveCodexPromptCacheID cfg uuidGen parseDuration w ff p model now).1 ∧
    (applyCodexPromptCache cfg uuidGen parseDuration w ff p model raw false
        now).2 =
      (resolveCodexPromptCacheID cfg uuidGen parseDuration w ff p model
        now).2 := by
  simp only [applyCodexPromptCache]
  rcases hres : resolveCodexPromptCacheID cfg uuidGen parseDuration w ff p
    model now with ⟨cid, w2⟩
  by_cases h : cid = "" <;> simp [hres, h]

theorem resolveCodexPromptCacheID_auto (cfg : Option Config)
    (uuidGen : Nat → String) (parseDuration : String → Option Int)
    (w : PromptCacheWorld) (p : JVal) (model : String) (now : Int)
    (hek : explicitCodexPromptCacheKey p = "")
    (hdis : cacheDisabledByRetention p = false)
    (hu : codexPromptCacheUserID p ≠ "") :
    resolveCodexPromptCacheID cfg uuidGen parseDuration w "claude" p model
        now =
      getOrCreateCodexPromptCacheID cfg uuidGen w model
        (codexPromptCacheUserID p)
        (codexPromptCacheEffectiveTTL parseDuration cfg p) now := by
  simp only [resolveCodexPromptCacheID]
  rw [if_neg (by simp [hek]), if_neg (by simp [hdis])]
  simp only [if_true]
  rw [if_pos hu]

theorem getOrCreateCodexPromptCacheID_distinct_model (cfg : Option Config)
    (uuidGen : Nat → String) (m1 m2 u1 u2 : String) (ttl1 ttl2 now1 now2 : Int)
    (hurl : (redisConfigFrom cfg).1 = "")
    (hm1 : goTrim m1 ≠ "") (hm2 : goTrim m2 ≠ "")
    (hu1 : goTrim u1 ≠ "") (hu2 : goTrim u2 = goTrim u1)
    (hmne : goTrim m1 ≠ goTrim m2)
    (huuid : uuidGen 0 ≠ uuidGen 1) :
    (getOrCreateCodexPromptCacheID cfg uuidGen
        (getOrCreateCodexPromptCacheID cfg uuidGen {} m1 u1 ttl1 now1).2
        m2 u2 ttl2 now2).1 ≠
      (getOrCreateCodexPromptCacheID cfg uuidGen {} m1 u1 ttl1 now1).1 := by
  have h1 := getOrCreateCodexPromptCacheID_local_fresh cfg uuidGen {} m1 u1
    ttl1 now1 hurl hm1 hu1 (by simp [getCodexCache, assocGet])
  have hkey : ¬((goTrim m1 ++ "-" ++ goTrim u1) =
      (goTrim m2 ++ "-" ++ goTrim u2)) := by
    intro hEq
    rw [hu2] at hEq
    exact hmne (string_append_right_cancel _ _ "-"
      (string_append_right_cancel _ _ (goTrim u1) hEq))
  have hmiss2 : getCodexCache
      (getOrCreateCodexPromptCacheID cfg uuidGen {} m1 u1 ttl1 now1).2 now2
      (goTrim m2 ++ "-" ++ goTrim u2) = none := by
    rw [h1]
    simp [getCodexCache, assocGet, assocSet, hkey]
  have h2 := getOrCreateCodexPromptCacheID_local_fresh cfg uuidGen
    (getOrCreateCodexPromptCacheID cfg uuidGen {} m1 u1 ttl1 now1).2 m2 u2
    ttl2 now2 hurl hm2 (by rw [hu2]; exact hu1) hmiss2
  rw [h2, h1]
  exact fun hEq => huuid hEq.symm

/-- C6: sequential prompt-cache id stability and model separation.  For two
sequential `applyCodexPromptCache` calls deriving a cache id for the same
source format, model and user identifier, with the entry created by the
first call not yet expired at the second, the second call returns the first
call id — both on the local in-memory map path (no distributed store
configured) and on the distributed-store path; and two calls from a fresh
state that differ in the model yield different ids. -/
theorem codex_prompt_cache_id_stability :
    (∀ (cfg : Option Config) (uuidGen : Nat → String)
        (parseDuration : String → Option Int) (w : PromptCacheWorld)
        (p1 p2 : JVal) (model : String) (now1 now2 : Int)
        (body1 : Option JVal) (id1 : String) (hdr1 : List (String × String))
        (w1 : PromptCacheWorld),
      (redisConfigFrom cfg).1 = "" →
      goTrim model ≠ "" →
      explicitCodexPromptCacheKey p1 = "" →
      explicitCodexPromptCacheKey p2 = "" →
      cacheDisabledByRetention p1 = false →
      cacheDisabledByRetention p2 = false →
      goTrim (codexPromptCacheUserID p1) ≠ "" →
      codexPromptCacheUserID p2 = codexPromptCacheUserID p1 →
      applyCodexPromptCache cfg uuidGen parseDuration w "claude" p1 model
        none false now1 = ((body1, id1, hdr1), w1) →
      (∀ e, assocGet w1.localMap
          (goTrim model ++ "-" ++ goTrim (codexPromptCacheUserID p1)) =
        some e → now2 < e.expire) →
      (applyCodexPromptCache cfg uuidGen parseDuration w1 "claude" p2 model
        none false now2).1.2.1 = id1) ∧
    (∀ (cfg : Option Config) (uuidGen : Nat → String)
        (parseDuration : String → Option Int) (w : PromptCacheWorld)
        (p1 p2 : JVal) (model : String) (now1 now2 : Int)
        (body1 : Option JVal) (id1 : String) (hdr1 : List (String × String))
        (w1 : PromptCacheWorld),
      (redisConfigFrom cfg).1 ≠ "" →
      goTrim model ≠ "" →
      explicitCodexPromptCacheKey p1 = "" →
      explicitCodexPromptCacheKey p2 = "" →
      cacheDisabledByRetention p1 = false →
      cacheDisabledByRetention p2 = false →
      goTrim (codexPromptCacheUserID p1) ≠ "" →
      codexPromptCacheUserID p2 = codexPromptCacheUserID p1 →
      goTrim (uuidGen w.uuidCounter) = uuidGen w.uuidCounter →
      uuidGen w.uuidCounter ≠ "" →
      applyCodexPromptCache cfg uuidGen parseDuration w "claude" p1 model
        none false now1 = ((body1, id1, hdr1), w1) →
      (∀ raw expv, assocGet w1.redis.entries
          ((redisConfigFrom cfg).2.1 ++
            (goTrim model ++ "-" ++ goTrim (codexPromptCacheUserID p1))) =
        some (raw, expv) → now2 < expv) →
      (applyCodexPromptCache cfg uuidGen parseDuration w1 "claude" p2 model
        none false now2).1.2.1 = id1) ∧
    (∀ (cfg : Option Config) (uuidGen : Nat → String)
        (parseDuration : String → Option Int) (p1 p2 : JVal)
        (m1 m2 : String) (now1 now2 : Int),
      (redisConfigFrom cfg).1 = "" →
      goTrim m1 ≠ "" → goTrim m2 ≠ "" → goTrim m1 ≠ goTrim m2 →
      explicitCodexPromptCacheKey p1 = "" →
      explicitCodexPromptCacheKey p2 = "" →
      cacheDisabledByRetention p1 = false →
      cacheDisabledByRetention p2 = false →
      goTrim (codexPromptCacheUserID p1) ≠ "" →
      codexPromptCacheUserID p2 = codexPromptCacheUserID p1 →
      uuidGen 0 ≠ uuidGen 1 →
      (applyCodexPromptCache cfg uuidGen parseDuration
          (applyCodexPromptCache cfg uuidGen parseDuration {} "claude" p1 m1
            none false now1).2
          "claude" p2 m2 none false now2).1.2.1 ≠
        (applyCodexPromptCache cfg uuidGen parseDuration {} "claude" p1 m1
          none false now1).1.2.1) := by
  refine ⟨?_, ?_, ?_⟩
  · intro cfg uuidGen parseDuration w p1 p2 model now1 now2 body1 id1 hdr1 w1
      hurl hm hek1 hek2 hdis1 hdis2 hu1 hu2eq h1 hexp
    have hu1u : codexPromptCacheUserID p1 ≠ "" := by
      intro hq
      rw [hq] at hu1
      exact hu1 rfl
    have hu2u : codexPromptCacheUserID p2 ≠ "" := by
      rw [hu2eq]
      exact hu1u
    obtain ⟨hprod1, hprod2⟩ := applyCodexPromptCache_resolved cfg uuidGen
      parseDuration w "claude" p1 model none now1
    rw [h1] at hprod1 hprod2
    simp only [] at hprod1 hprod2
    rw [resolveCodexPromptCacheID_auto cfg uuidGen parseDuration w p1 model
      now1 hek1 hdis1 hu1u] at hprod1 hprod2
    have hch : getOrCreateCodexPromptCacheID cfg uuidGen w model
        (codexPromptCacheUserID p1)
        (codexPromptCacheEffectiveTTL parseDuration cfg p1) now1 =
        (id1, w1) := by
      rw [hprod1, hprod2]
    have hstable := getOrCreateCodexPromptCacheID_local_stable cfg uuidGen w
      model (codexPromptCacheUserID p1) (codexPromptCacheUserID p2)
      (codexPromptCacheEffectiveTTL parseDuration cfg p1)
      (codexPromptCacheEffectiveTTL parseDuration cfg p2) now1 now2 id1 w1
      hurl hm hu1 (by rw [hu2eq]) hch hexp
    obtain ⟨hq1, _⟩ := applyCodexPromptCache_resolved cfg uuidGen
      parseDuration w1 "claude" p2 model none now2
    rw [resolveCodexPromptCacheID_auto cfg uuidGen parseDuration w1 p2 model
      now2 hek2 hdis2 hu2u] at hq1
    rw [hq1, hstable]
  · intro cfg uuidGen parseDuration w p1 p2 model now1 now2 body1 id1 hdr1 w1
      hurl hm hek1 hek2 hdis1 hdis2 hu1 hu2eq huuidA huuidB h1 hexp
    have hu1u : codexPromptCacheUserID p1 ≠ "" := by
      intro hq
      rw [hq] at hu1
      exact hu1 rfl
    have hu2u : codexPromptCacheUserID p2 ≠ "" := by
      rw [hu2eq]
      exact hu1u
    obtain ⟨hprod1, hprod2⟩ := applyCodexPromptCache_resolved cfg uuidGen
      parseDuration w "claude" p1 model none now1
    rw [h1] at hprod1 hprod2
    simp only [] at hprod1 hprod2
    rw [resolveCodexPromptCacheID_auto cfg uuidGen parseDuration w p1 model
      now1 hek1 hdis1 hu1u] at hprod1 hprod2
    have hch : getOrCreateCodexPromptCacheID cfg uuidGen w model
        (codexPromptCacheUserID p1)
        (codexPromptCacheEffectiveTTL parseDuration cfg p1) now1 =
        (id1, w1) := by
      rw [hprod1, hprod2]
    have hstable := getOrCreateCodexPromptCacheID_redis_stable cfg uuidGen w
      model (codexPromptCacheUserID p1) (codexPromptCacheUserID p2)
      (codexPromptCacheEffectiveTTL parseDuration cfg p1)
      (codexPromptCacheEffectiveTTL parseDuration cfg p2) now1 now2 id1 w1
      hurl hm hu1 (by rw [hu2eq]) huuidA huuidB hch hexp
    obtain ⟨hq1, _⟩ := applyCodexPromptCache_resolved cfg uuidGen
      parseDuration w1 "claude" p2 model none now2
    rw [resolveCodexPromptCacheID_auto cfg uuidGen parseDuration w1 p2 model
      now2 hek2 hdis2 hu2u] at hq1
    rw [hq1, hstable]
  · intro cfg uuidGen parseDuration p1 p2 m1 m2 now1 now2 hurl hm1 hm2 hmne
      hek1 hek2 hdis1 hdis2 hu1 hu2eq huuid
    have hu1u : codexPromptCacheUserID p1 ≠ "" := by
      intro hq
      rw [hq] at hu1
      exact hu1 rfl
    have hu2u : codexPromptCacheUserID p2 ≠ "" := by
      rw [hu2eq]
      exact hu1u
    obtain ⟨ha1, ha2⟩ := applyCodexPromptCache_resolved cfg uuidGen
      parseDuration {} "claude" p1 m1 none now1
    rw [resolveCodexPromptCacheID_auto cfg uuidGen parseDuration {} p1 m1
      now1 hek1 hdis1 hu1u] at ha1 ha2
    rw [ha1, ha2]
    obtain ⟨hb1, _⟩ := applyCodexPromptCache_resolved cfg uuidGen
      parseDuration
      (getOrCreateCodexPromptCacheID cfg uuidGen {} m1
        (codexPromptCacheUserID p1)
        (codexPromptCacheEffectiveTTL parseDuration cfg p1) now1).2
      "claude" p2 m2 none now2
    rw [resolveCodexPromptCacheID_auto cfg uuidGen parseDuration _ p2 m2
      now2 hek2 hdis2 hu2u] at hb1
    rw [hb1]
    exact getOrCreateCodexPromptCacheID_distinct_model cfg uuidGen m1 m2
      (codexPromptCacheUserID p1) (codexPromptCacheUserID p2)
      (codexPromptCacheEffectiveTTL parseDuration cfg p1)
      (codexPromptCacheEffectiveTTL parseDuration cfg p2) now1 now2 hurl hm1
      hm2 hu1 (by rw [hu2eq]) hmne huuid

theorem codex_prompt_cache_id_stability_witness :
    (applyCodexPromptCache none (fun n => if n = 0 then "id-a" else "id-b")
        (fun _ => none)
        ⟨[("gpt-5-alice", ⟨"id-a", 3600000000000⟩)], {}, 1⟩ "claude"
        (.jobj [("user", .jstr "alice")]) "gpt-5" none false 5).1.2.1 =
      "id-a" := by
  exact codex_prompt_cache_id_stability.1 none
    (fun n => if n = 0 then "id-a" else "id-b") (fun _ => none) {}
    (.jobj [("user", .jstr "alice")]) (.jobj [("user", .jstr "alice")])
    "gpt-5" 0 5 (some (.jobj [("prompt_cache_key", .jstr "id-a")])) "id-a"
    [("Conversation_id", "id-a"), ("Session_id", "id-a")]
    ⟨[("gpt-5-alice", ⟨"id-a", 3600000000000⟩)], {}, 1⟩ rfl (by decide) rfl
    rfl rfl rfl (by decide) rfl rfl
    (by
      intro e he
      have he2 : some (⟨"id-a", 3600000000000⟩ : CodexCacheEntry) = some e :=
        he
      injection he2 with h3
      rw [← h3]
      decide)

/-! ## C8: Kimi tool-message link normalization -/

theorem intercalate_go_data_prefix (s : String) (l : List String)
    (acc : String) :
    ∃ t : List Char, (String.intercalate.go acc s l).data = acc.data ++ t := by
  induction l generalizing acc with
  | nil => exact ⟨[], by simp [String.intercalate.go]⟩
  | cons a as ih =>
    obtain ⟨t, ht⟩ := ih (acc ++ s ++ a)
    refine ⟨s.data ++ a.data ++ t, ?_⟩
    rw [show String.intercalate.go acc s (a :: as) =
      String.intercalate.go (acc ++ s ++ a) s as from rfl, ht]
    simp [String.data_append]

theorem goTrim_fallbackAssistantReasoning_ne_empty (msg : JVal) (hl : Bool)
    (lat : String) :
    goTrim (fallbackAssistantReasoning msg hl lat) ≠ "" := by
  unfold fallbackAssistantReasoning
  split_ifs with h
  · exact h.2
  · rcases hc : jget msg [.key "content"] with _ | v
    · simp only [hc]
      decide
    · cases v with
      | jstr s2 =>
        simp only [hc]
        split_ifs with h2
        · exact goTrim_goTrim_ne_empty s2 h2
        · decide
      | jarr items =>
        simp only [hc]
        split_ifs with h2
        · rcases hq : (items.map
              (fun item => goTrim (jgetString item [.key "text"]))).filter
              (fun t => t ≠ "") with _ | ⟨q, qs⟩
          · exact absurd hq h2
          · have hqmem : q ∈ (items.map
                (fun item => goTrim (jgetString item [.key "text"]))).filter
                (fun t => t ≠ "") := by
              rw [hq]
              exact List.mem_cons_self q qs
            obtain ⟨hqmap, hqne⟩ := List.mem_filter.mp hqmem
            have hqne2 : q ≠ "" := by simpa using hqne
            obtain ⟨item, _, hitem⟩ := List.mem_map.mp hqmap
            have hqtrim : goTrim (jgetString item [.key "text"]) ≠ "" := by
              rw [hitem]
              exact hqne2
            obtain ⟨c, hcmem, hcsp⟩ :=
              goTrim_has_nonspace (jgetString item [.key "text"]) hqtrim
            rw [hitem] at hcmem
            simp only [String.intercalate]
            obtain ⟨t, ht⟩ := intercalate_go_data_prefix "\n" qs q
            refine goTrim_ne_empty _ c ?_ hcsp
            rw [ht]
            exact List.mem_append_left _ hcmem
        · decide
      | null =>
        simp only [hc]
        decide
      | jbool b =>
        simp only [hc]
        decide
      | jnum n =>
        simp only [hc]
        decide
      | jobj fs =>
        simp only [hc]
        decide

/-- C8: Kimi request-body normalization of tool-message links.  The message
loop keeps message count and positions, patching each message by one loop
step; a tool message lacking `tool_call_id` gets it from its own non-blank
`call_id`, else from the single outstanding pending tool-call id; an
assistant message carrying tool calls with blank or missing
`reasoning_content` gets one injected, derived from the latest prior
reasoning, else the textual content, else the fixed placeholder, and the
injected value is never blank; on the two-message spec scenario the tool
message ends with `tool_call_id` `call-1`, the assistant message with the
placeholder reasoning, and the model name is stripped of its `kimi-`
prefix. -/
theorem kimi_tool_message_normalization :
    (∀ (st : KimiLoopState) (msgs : List JVal),
      (kimiProcessMessages st msgs).length = msgs.length) ∧
    (∀ (st : KimiLoopState) (msgs : List JVal) (i : Nat) (msg : JVal),
      msgs[i]? = some msg →
      ∃ st2 : KimiLoopState,
        (kimiProcessMessages st msgs)[i]? = some (kimiStep st2 msg).1) ∧
    (∀ (st : KimiLoopState) (msg : JVal),
      goTrim (jgetString msg [.key "role"]) = "tool" →
      goTrim (jgetString msg [.key "tool_call_id"]) = "" →
      goTrim (jgetString msg [.key "call_id"]) ≠ "" →
      (kimiStep st msg).1 = jset msg [.key "tool_call_id"]
        (.jstr (goTrim (jgetString msg [.key "call_id"])))) ∧
    (∀ (st : KimiLoopState) (msg : JVal) (p : String),
      goTrim (jgetString msg [.key "role"]) = "tool" →
      goTrim (jgetString msg [.key "tool_call_id"]) = "" →
      goTrim (jgetString msg [.key "call_id"]) = "" →
      st.pending = [p] →
      (kimiStep st msg).1 = jset msg [.key "tool_call_id"] (.jstr p)) ∧
    (∀ (st : KimiLoopState) (msg : JVal) (xs : List JVal),
      goTrim (jgetString msg [.key "role"]) = "assistant" →
      jget msg [.key "tool_calls"] = some (.jarr xs) → xs ≠ [] →
      (∀ r, jget msg [.key "reasoning_content"] = some r →
        goTrim (jvalString r) = "") →
      (kimiStep st msg).1 = jset msg [.key "reasoning_content"]
          (.jstr (fallbackAssistantReasoning msg st.hasLatest st.latest)) ∧
        goTrim (jgetString (kimiStep st msg).1 [.key "reasoning_content"]) ≠
          "") ∧
    (jgetString (kimiTransformRequestBody
        (.jobj [("messages", .jarr [
          .jobj [("role", .jstr "assistant"),
            ("tool_calls", .jarr [.jobj [("id", .jstr "call-1")]])],
          .jobj [("role", .jstr "tool"), ("content", .jstr "ok")]])])
        "kimi-k2" false)
        [.key "messages", .idx 1, .key "tool_call_id"] = "call-1" ∧
      jgetString (kimiTransformRequestBody
        (.jobj [("messages", .jarr [
          .jobj [("role", .jstr "assistant"),
            ("tool_calls", .jarr [.jobj [("id", .jstr "call-1")]])],
          .jobj [("role", .jstr "tool"), ("content", .jstr "ok")]])])
        "kimi-k2" false)
        [.key "messages", .idx 0, .key "reasoning_content"] =
        "[reasoning unavailable]" ∧
      jgetString (kimiTransformRequestBody
        (.jobj [("messages", .jarr [
          .jobj [("role", .jstr "assistant"),
            ("tool_calls", .jarr [.jobj [("id", .jstr "call-1")]])],
          .jobj [("role", .jstr "tool"), ("content", .jstr "ok")]])])
        "kimi-k2" false)
        [.key "model"] = "k2") := by
  refine ⟨?_, ?_, ?_, ?_, ?_, rfl, rfl, rfl⟩
  · intro st msgs
    induction msgs generalizing st with
    | nil => rfl
    | cons m rest ih => simp [kimiProcessMessages, ih]
  · intro st msgs
    induction msgs generalizing st with
    | nil =>
      intro i msg hmsg
      simp at hmsg
    | cons m rest ih =>
      intro i msg hmsg
      cases i with
      | zero =>
        obtain rfl : m = msg := by simpa using hmsg
        exact ⟨st, by simp [kimiProcessMessages]⟩
      | succ j =>
        have hmsg2 : rest[j]? = some msg := by simpa using hmsg
        obtain ⟨st2, hst2⟩ := ih (kimiStep st m).2 j msg hmsg2
        exact ⟨st2, by simpa [kimiProcessMessages] using hst2⟩
  · intro st msg hrole htid hcall
    simp [kimiStep, hrole, htid, hcall]
  · intro st msg p hrole htid hcall hp
    simp [kimiStep, hrole, htid, hcall, hp]
  · intro st msg xs hrole htc hxs hblank
    have hout : (kimiStep st msg).1 = jset msg [.key "reasoning_content"]
        (.jstr (fallbackAssistantReasoning msg st.hasLatest st.latest)) := by
      rcases hr : jget msg [.key "reasoning_content"] with _ | r
      · simp [kimiStep, hrole, hr, htc, hxs]
      · have hb := hblank r hr
        simp [kimiStep, hrole, hr, hb, htc, hxs]
    refine ⟨hout, ?_⟩
    rw [hout]
    simp only [jgetString, jget_jset_self]
    exact goTrim_fallbackAssistantReasoning_ne_empty msg st.hasLatest st.latest

theorem kimi_tool_message_normalization_witness :
    (kimiStep {} (.jobj [("role", .jstr "tool"), ("content", .jstr "ok"),
        ("call_id", .jstr "call-9")])).1 =
      jset (.jobj [("role", .jstr "tool"), ("content", .jstr "ok"),
        ("call_id", .jstr "call-9")]) [.key "tool_call_id"]
        (.jstr "call-9") := by
  exact kimi_tool_message_normalization.2.2.1 {}
    (.jobj [("role", .jstr "tool"), ("content", .jstr "ok"),
      ("call_id", .jstr "call-9")]) rfl rfl (by decide)

end CLIProxy
